import Mathlib

/-
Verification of the healthmon container monitor (Go) against its
natural-language specification.

The development shallowly embeds the relevant parts of
`internal/store/store.go` and `internal/monitor/monitor.go`:

* `time.Time` is modelled as an `Int` of nanoseconds since the Unix epoch;
  the Go zero time is modelled as `0` (`IsZero` becomes `= 0`).
  Distinct `time.Now()` calls inside one handler are identified as a single
  `now` parameter.
* The SQLite tables and the in-memory name→container cache are modelled as
  one `StoreState`: the cache coincides with the container rows (the Go code
  keeps them coherent under the store's write lock), while event/alert rows
  are kept as lists ordered newest first, with ids assigned from a counter
  mirroring AUTOINCREMENT.  `formatTime`/`parseTime` (RFC3339, whole
  seconds, UTC) become the nanosecond truncation `dbTime`.
* Go stdlib string helpers (`strings.ToLower`, `strings.TrimSpace`,
  `strings.HasPrefix`, `strings.TrimPrefix`, `strconv.Atoi`) are modelled
  for ASCII input by `lowerStr`, `trimStr`, `List.isPrefixOf`, `trimPre`
  and `goAtoi`; `strconv.Atoi`'s 64-bit range check is not modelled.
* Docker inspect responses (`container.InspectResponse`) keep the nil-able
  pointers `State`, `State.Health` and `HostConfig` as `Option`s.
  `Config.Image` is carried already split by `parseImage` (the external
  `distribution/reference` library) into name and tag; container fields
  that no claim reads (caps, user, read_only, no_new_privileges, memory
  limits, healthcheck descriptor, role label resolution) are omitted or
  fixed to their defaults.
* Fallible external calls (the inspect RPC) are passed in as
  `Option InspectResponse`; `none` is an inspect failure.
-/

namespace Healthmon

/-! ## Go stdlib string helpers (ASCII model) -/

/-- ASCII lower-casing of one character (model of `unicode.ToLower` on ASCII). -/
def asciiLowerChar (c : Char) : Char :=
  if 'A' ≤ c ∧ c ≤ 'Z' then Char.ofNat (c.toNat + 32) else c

/-- Model of Go `strings.ToLower` for ASCII strings. -/
def lowerStr (s : String) : String := String.mk (s.data.map asciiLowerChar)

/-- ASCII whitespace (model of `unicode.IsSpace` on the characters Go trims). -/
def isSpaceChar (c : Char) : Bool := c = ' ' ∨ c = '\t' ∨ c = '\n' ∨ c = '\r'

/-- Model of Go `strings.TrimSpace` for ASCII strings. -/
def trimStr (s : String) : String :=
  String.mk (((s.data.dropWhile isSpaceChar).reverse.dropWhile isSpaceChar).reverse)

/-- Model of Go `strings.TrimPrefix`. -/
def trimPre (p s : String) : String :=
  if p.data.isPrefixOf s.data then String.mk (s.data.drop p.data.length) else s

/-- Model of Go `strings.HasPrefix`. -/
def hasPre (s p : String) : Bool := p.data.isPrefixOf s.data

/-- Model of Go `strings.Contains`. -/
def containsStr (s sub : String) : Bool :=
  (s.data.tails).any (fun t => sub.data.isPrefixOf t)

/-- Digit-sequence value of a list of decimal digit characters. -/
def digitsVal (l : List Char) : Nat := l.foldl (fun acc d => 10 * acc + (d.toNat - 48)) 0

/-- Model of Go `strconv.Atoi`: optional sign followed by one or more decimal
digits.  The 64-bit overflow error of the real `Atoi` is not modelled. -/
def goAtoi (s : String) : Option Int :=
  match s.data with
  | [] => none
  | c :: rest =>
    let signed : Bool := c = '-' ∨ c = '+'
    let ds := if signed then rest else c :: rest
    if ds = [] ∨ ¬ ds.all Char.isDigit then none
    else some (if c = '-' then -(digitsVal ds : Int) else (digitsVal ds : Int))

/-! ## Time model -/

def nsPerSec : Int := 1000000000

/-- `parseTime ∘ formatTime` (store.go:1885-1901): times are persisted as
RFC3339 with whole-second precision in UTC, so a round trip through the
database floors the instant to the second; the zero time round-trips to the
zero time. -/
def dbTime (t : Int) : Int := nsPerSec * (t / nsPerSec)

/-- `minTime` (monitor.go:941-952). -/
def minTime (a b : Int) : Int :=
  if a = 0 then b else if b = 0 then a else if a < b then a else b

/-- `maxInt` (monitor.go:954-959). -/
def maxI (a b : Int) : Int := if a > b then a else b

/-- `int64(^uint64(0) >> 1)`: the page cursor used when `before_id ≤ 0`. -/
def maxInt64 : Int := 9223372036854775807

/-! ## Data model (store package) -/

/-- `store.Container` (the fields read or written by the claims; caps,
user, read-only, no-new-privileges, memory limits and the healthcheck
descriptor are pass-through blobs no claim observes and are omitted). -/
structure Container where
  id : Int
  name : String
  containerId : String
  image : String
  imageTag : String
  imageId : String
  createdAt : Int
  registeredAt : Int
  startedAt : Int
  finishedAt : Int
  exitCode : Option Int
  status : String
  role : String
  present : Bool
  healthStatus : String
  healthFailingStreak : Int
  unhealthySince : Int
  restartLoop : Bool
  restartStreak : Int
  restartLoopSince : Int
  lastEventId : Int
  updatedAt : Int
  deriving DecidableEq, Repr

/-- A zero-valued `store.Container`, for building literals. -/
def defContainer : Container :=
  { id := 0, name := "", containerId := "", image := "", imageTag := ""
  , imageId := "", createdAt := 0, registeredAt := 0, startedAt := 0
  , finishedAt := 0, exitCode := none, status := "", role := ""
  , present := false, healthStatus := "", healthFailingStreak := 0
  , unhealthySince := 0, restartLoop := false, restartStreak := 0
  , restartLoopSince := 0, lastEventId := 0, updatedAt := 0 }

/-- `store.Event` (and `store.Alert`, which has the same shape). -/
structure Event where
  id : Int
  containerPK : Int
  container : String
  containerId : String
  type : String
  severity : String
  message : String
  timestamp : Int
  oldImage : String
  newImage : String
  oldImageId : String
  newImageId : String
  reason : String
  detailsJSON : String
  exitCode : Option Int
  deriving DecidableEq, Repr

/-- `store.Alert` has exactly the fields of `store.Event`. -/
abbrev Alert := Event

/-- A zero-valued `store.Event`. -/
def defEvent : Event :=
  { id := 0, containerPK := 0, container := "", containerId := "", type := ""
  , severity := "", message := "", timestamp := 0, oldImage := ""
  , newImage := "", oldImageId := "", newImageId := "", reason := ""
  , detailsJSON := "", exitCode := none }

/-- The store: container rows (coinciding with the in-memory cache),
event and alert rows newest first, and the AUTOINCREMENT counters. -/
structure StoreState where
  containers : List Container
  events : List Event
  alerts : List Alert
  nextContainerId : Int
  nextEventId : Int
  nextAlertId : Int
  deriving DecidableEq, Repr

def emptyStore : StoreState :=
  { containers := [], events := [], alerts := []
  , nextContainerId := 1, nextEventId := 1, nextAlertId := 1 }

/-! ## Store operations (store.go) -/

/-- `Store.GetContainer` (store.go:860-868): cache lookup by name. -/
def getContainer (s : StoreState) (name : String) : Option Container :=
  s.containers.find? (fun c => c.name == name)

/-- `Store.GetContainerByContainerID` (store.go:950-1034): lookup by the
engine-assigned container id (the DB fallback reads the same rows). -/
def getContainerByContainerID (s : StoreState) (containerId : String) :
    Option Container :=
  if containerId == "" then none
  else s.containers.find? (fun c => c.containerId == containerId)

/-- `Store.FindContainerByID` (store.go:1785-1795). -/
def findContainerByID (s : StoreState) (containerId : String) :
    Option Container :=
  s.containers.find? (fun c => c.containerId == containerId)

/-- `Store.ListContainers` (store.go:846-858): present containers only. -/
def listContainers (s : StoreState) : List Container :=
  s.containers.filter (fun c => c.present)

/-- Replace the row named `c.name`, or append a fresh row. -/
def putContainer (l : List Container) (c : Container) : List Container :=
  if (l.find? (fun x => x.name == c.name)).isSome
  then l.map (fun x => if x.name == c.name then c else x)
  else l ++ [c]

/-- The row actually stored by `Store.UpsertContainer` (store.go:1036-1130):
defaults `role`, `registered_at`, `started_at` and `last_event_id` from the
existing row, forces `present`, and keeps the existing surrogate id
(`RETURNING id` of the conflicting row) or assigns the next fresh one. -/
def upsertRow (s : StoreState) (c0 : Container) (now : Int) : Container :=
  let existing? := getContainer s c0.name
  let c1 := if c0.role = "" then { c0 with role := "service" } else c0
  let c2 :=
    if c1.registeredAt = 0 then
      match existing? with
      | some ex =>
        if ex.registeredAt ≠ 0 then { c1 with registeredAt := ex.registeredAt }
        else if c1.createdAt ≠ 0 ∧ c1.createdAt < now then
          { c1 with registeredAt := c1.createdAt }
        else { c1 with registeredAt := now }
      | none =>
        if c1.createdAt ≠ 0 ∧ c1.createdAt < now then
          { c1 with registeredAt := c1.createdAt }
        else { c1 with registeredAt := now }
    else c1
  let c3 :=
    if c2.startedAt = 0 then
      match existing? with
      | some ex =>
        if ex.startedAt ≠ 0 then { c2 with startedAt := ex.startedAt } else c2
      | none => c2
    else c2
  let c4 :=
    if c3.lastEventId = 0 then
      match existing? with
      | some ex =>
        if ex.lastEventId > 0 then { c3 with lastEventId := ex.lastEventId } else c3
      | none => c3
    else c3
  let c5 := { c4 with present := true }
  let id := match existing? with
    | some ex => ex.id
    | none => s.nextContainerId
  { c5 with id := id }

/-- `Store.UpsertContainer` (store.go:1036-1130): insert-or-update by name. -/
def upsertContainer (s : StoreState) (c0 : Container) (now : Int) : StoreState :=
  { s with
    containers := putContainer s.containers (upsertRow s c0 now),
    nextContainerId :=
      if (getContainer s c0.name).isSome then s.nextContainerId
      else s.nextContainerId + 1 }

/-- `Store.AddEvent` (store.go:1132-1153): append the row (timestamp stored
through `formatTime`), return the new id, and set the named container's
`last_event_id`/`updated_at` in the cache. -/
def addEvent (s : StoreState) (e : Event) : StoreState × Int :=
  let id := s.nextEventId
  let row := { e with id := id, timestamp := dbTime e.timestamp }
  let containers' := s.containers.map (fun c =>
    if c.name == e.container then
      { c with lastEventId := id, updatedAt := e.timestamp } else c)
  ({ s with
      events := row :: s.events,
      containers := containers',
      nextEventId := id + 1 }, id)

/-- `Store.AddAlert` (store.go:1307-1320): append the row, return the id. -/
def addAlert (s : StoreState) (a : Alert) : StoreState × Int :=
  let id := s.nextAlertId
  let row := { a with id := id, timestamp := dbTime a.timestamp }
  ({ s with alerts := row :: s.alerts, nextAlertId := id + 1 }, id)

/-- Insert into a list kept in descending key order (`ORDER BY … DESC`). -/
def insertDescBy (key : Event → Int) (x : Event) : List Event → List Event
  | [] => [x]
  | y :: ys => if key y ≤ key x then x :: y :: ys else y :: insertDescBy key x ys

/-- Sort a list of rows in descending key order (`ORDER BY … DESC`). -/
def sortDescBy (key : Event → Int) : List Event → List Event
  | [] => []
  | x :: xs => insertDescBy key x (sortDescBy key xs)

/-- `Store.ListAllEvents` (store.go:1239-1297): default limit 50, cursor
`maxInt64` when `before_id ≤ 0`, rows with `id < before_id` in descending
id order, at most `limit` of them. -/
def listAllEvents (s : StoreState) (beforeID limit : Int) : List Event :=
  let l := if limit ≤ 0 then (50 : Int) else limit
  let b := if beforeID ≤ 0 then maxInt64 else beforeID
  (sortDescBy (fun e => e.id) (s.events.filter (fun e => e.id < b))).take l.toNat

/-- `Store.GetLatestRestartTimestampByContainerPK` (store.go:1482-1498):
timestamp of the newest (greatest id) event of type `restart` for the
surrogate id, if any. -/
def getLatestRestartTs (s : StoreState) (pk : Int) : Option Int :=
  ((sortDescBy (fun e => e.id)
      (s.events.filter (fun e => e.containerPK == pk && e.type == "restart"))).head?).map
    (fun e => e.timestamp)

/-- `Store.latestEventID` (store.go:1797-1806): `MAX(id)` over the
container's events, `0` when there are none. -/
def latestEventID (events : List Event) (pk : Int) : Int :=
  (events.filter (fun e => e.containerPK == pk)).foldl
    (fun acc e => if e.id > acc then e.id else acc) 0

/-- `Store.SetContainerPresent` (store.go:1574-1592). -/
def setContainerPresent (s : StoreState) (name : String) (present : Bool)
    (now : Int) : StoreState :=
  if name = "" then s
  else { s with containers := s.containers.map (fun c =>
    if c.name == name then { c with present := present, updatedAt := now } else c) }

/-- `Store.Load` (store.go:768-844): hydrates the in-memory cache from the
container rows, defaulting an empty `role` to `"service"`.  The source
performs no writes: event and alert rows are read back exactly as stored —
there is no repair pass over them. -/
def storeLoad (db : StoreState) : StoreState :=
  { db with containers := db.containers.map (fun c =>
      if c.role == "" then { c with role := "service" } else c) }

/-- `Store.RenameContainer` (store.go:1615-1772).  Carries `registered_at`,
`started_at`, `finished_at`, `exit_code`, `last_event_id`,
`unhealthy_since` and `restart_loop_since` over from the row being renamed;
then either renames that row in place (no collision) or re-points its
events to the colliding target row, refreshes the target with the snapshot,
recomputes the target's `last_event_id` and marks the old row absent. -/
def renameContainer (s : StoreState) (oldName0 newName : String)
    (info0 : Container) (now : Int) : StoreState :=
  if oldName0 = "" ∨ newName = "" ∨ oldName0 = newName then s else
  let found : Option (Container × String) :=
    match getContainer s oldName0 with
    | some oc => some (oc, oldName0)
    | none =>
      match findContainerByID s info0.containerId with
      | some oc => some (oc, oc.name)
      | none => none
  match found with
  | none => s
  | some (oldC, oldName) =>
    let info :=
      { info0 with
        name := newName,
        registeredAt := oldC.registeredAt,
        startedAt := oldC.startedAt,
        finishedAt := oldC.finishedAt,
        exitCode := oldC.exitCode,
        lastEventId := oldC.lastEventId,
        unhealthySince := oldC.unhealthySince,
        restartLoopSince := oldC.restartLoopSince,
        present := true,
        role := if info0.role = "" then oldC.role else info0.role }
    match getContainer s newName with
    | none =>
      -- no collision: rename the old row in place, keep its surrogate id,
      -- and rewrite the denormalized container_name on its events
      let row := { info with id := oldC.id }
      { s with
        containers := s.containers.map (fun c =>
          if c.name == oldName then row else c),
        events := s.events.map (fun e =>
          if e.containerPK == oldC.id then { e with container := newName } else e) }
    | some t =>
      -- collision: re-point the old row's events at the target surrogate id
      let events' := s.events.map (fun e =>
        if e.containerPK == oldC.id then
          { e with containerPK := t.id, container := newName } else e)
      let latestID := latestEventID events' t.id
      let targetRow :=
        { t with
          containerId := info.containerId,
          image := info.image,
          imageTag := info.imageTag,
          imageId := info.imageId,
          createdAt := info.createdAt,
          registeredAt := info.registeredAt,
          startedAt := info.startedAt,
          finishedAt := info.finishedAt,
          exitCode := info.exitCode,
          status := info.status,
          role := info.role,
          updatedAt := info.updatedAt,
          present := true,
          healthStatus := info.healthStatus,
          healthFailingStreak := info.healthFailingStreak,
          unhealthySince := info.unhealthySince,
          restartLoop := info.restartLoop,
          restartStreak := info.restartStreak,
          restartLoopSince := info.restartLoopSince,
          lastEventId := if latestID > 0 then latestID else t.lastEventId }
      { s with
        events := events',
        containers := s.containers.map (fun c =>
          if c.name == newName then targetRow
          else if c.name == oldName then
            { c with present := false, updatedAt := now, lastEventId := 0 }
          else c) }

/-! ## Docker inspect model (monitor.go) -/

/-- `container.State.Health` (only the fields the monitor reads). -/
structure InspectHealth where
  status : String
  failingStreak : Int
  deriving DecidableEq, Repr

/-- `container.State` (nil-able in Go, hence wrapped in `Option` below). -/
structure InspectState where
  status : String
  startedAt : Int
  health : Option InspectHealth
  deriving DecidableEq, Repr

/-- `container.HostConfig` (only the restart policy name is read by the
modelled paths). -/
structure HostConfig where
  restartPolicyName : String
  deriving DecidableEq, Repr

/-- `container.InspectResponse`.  `Config.Image` is carried already split
by `parseImage` (external reference library) into `imageName`/`imageTag`;
`imageId` is the top-level `Image` digest. -/
structure InspectResponse where
  id : String
  created : Int
  imageName : String
  imageTag : String
  imageId : String
  state : Option InspectState
  hostConfig : Option HostConfig
  deriving DecidableEq, Repr

/-- `Monitor.inspectToContainer` (monitor.go:848-904): derive a candidate
container snapshot from an inspect response (the role label resolution
always yields a non-empty role; it is fixed to the default `"service"`). -/
def inspectToContainer (ins : InspectResponse) (now : Int) : Container :=
  let status := match ins.state with
    | some st => st.status
    | none => "unknown"
  let startedAt := match ins.state with
    | some st => st.startedAt
    | none => 0
  let health := match ins.state with
    | some st =>
      match st.health with
      | some h => (h.status, h.failingStreak)
      | none => ("", (0 : Int))
    | none => ("", (0 : Int))
  { defContainer with
    containerId := ins.id,
    image := ins.imageName,
    imageTag := ins.imageTag,
    imageId := ins.imageId,
    createdAt := ins.created,
    startedAt := startedAt,
    status := status,
    role := "service",
    healthStatus := health.1,
    healthFailingStreak := health.2,
    updatedAt := now,
    present := true }

/-- `hasAutoRestartPolicy` (monitor.go:1019-1025): the policy name,
trimmed and lower-cased, is neither empty nor `"no"`; a nil `HostConfig`
counts as no policy. -/
def hasAutoRestartPolicy (ins : InspectResponse) : Bool :=
  match ins.hostConfig with
  | none => false
  | some h =>
    let policy := lowerStr (trimStr h.restartPolicyName)
    !(policy == "") && !(policy == "no")

/-- `shouldAlertNoRestartPolicyFailure` (monitor.go:1003-1017). -/
def shouldAlertNoRestartPolicyFailure (reason : String) (exitCode : Option Int)
    (ins : InspectResponse) : Bool :=
  match ins.hostConfig with
  | none => false
  | some _ =>
    if hasAutoRestartPolicy ins then false
    else if reason == "oom" then false
    else match exitCode with
      | none => false
      | some c => !(c == 0)

/-- `parseExitCode` (monitor.go:974-984): trim, empty means absent,
otherwise `strconv.Atoi`, errors mean absent. -/
def parseExitCode (val : String) : Option Int :=
  let trimmed := trimStr val
  if trimmed == "" then none else goAtoi trimmed

/-- `json.Marshal(map[string]int{"restart_count": n})`. -/
def restartCountJSON (n : Int) : String :=
  "\x7b\"restart_count\":" ++ toString n ++ "\x7d"

/-! ## Restart tracker (monitor.go:1094-1180) -/

/-- `restartTracker`: window (nanoseconds) and threshold, the per-name
timestamp series and the per-name in-loop flags. -/
structure RestartTracker where
  window : Int
  threshold : Int
  data : List (String × List Int)
  loop : List String
  deriving DecidableEq, Repr

/-- `newRestartTracker` (monitor.go:1102-1109). -/
def newRestartTracker (windowSeconds threshold : Int) : RestartTracker :=
  { window := windowSeconds * nsPerSec, threshold := threshold
  , data := [], loop := [] }

/-- Map read `r.data[name]` (missing key yields the empty series). -/
def trackerData (r : RestartTracker) (name : String) : List Int :=
  match r.data.find? (fun p => p.1 == name) with
  | some p => p.2
  | none => []

/-- Map write `r.data[name] = l` (assoc list, new binding shadows by
removing the old one). -/
def trackerSetData (r : RestartTracker) (name : String) (l : List Int) :
    RestartTracker :=
  { r with data := (name, l) :: r.data.filter (fun p => ¬(p.1 == name)) }

/-- `restartTracker.inLoop` (monitor.go:1128-1132). -/
def trackerInLoop (r : RestartTracker) (name : String) : Bool :=
  r.loop.contains name

/-- `r.loop[name] = true`. -/
def trackerSetLoop (r : RestartTracker) (name : String) : RestartTracker :=
  { r with loop := name :: r.loop }

/-- `restartTracker.prune` (monitor.go:1173-1180): drop the leading
entries strictly before `now - window`. -/
def trackerPrune (window : Int) (l : List Int) (now : Int) : List Int :=
  l.dropWhile (fun t => t < now - window)

/-- `restartTracker.record` (monitor.go:1111-1126): append the timestamp,
prune, store the pruned series, set the loop flag when the series reaches
the threshold, and report the length together with whether the loop flag
was newly set. -/
def trackerRecord (r : RestartTracker) (name : String) (ts : Int) :
    RestartTracker × Int × Bool :=
  let list := trackerPrune r.window (trackerData r name ++ [ts]) ts
  let hit : Bool := decide ((list.length : Int) ≥ r.threshold)
  let entered := hit && !(trackerInLoop r name)
  let r1 := trackerSetData r name list
  let r2 := if hit then trackerSetLoop r1 name else r1
  (r2, (list.length : Int), entered)

/-- `restartTracker.markHealed` (monitor.go:1146-1151): delete both the
loop flag and the series. -/
def trackerMarkHealed (r : RestartTracker) (name : String) : RestartTracker :=
  { r with
    loop := r.loop.filter (fun n => !(n == name)),
    data := r.data.filter (fun p => !(p.1 == name)) }

/-- `restartTracker.reset` (monitor.go:1166-1171): same deletions as
`markHealed`. -/
def trackerReset (r : RestartTracker) (name : String) : RestartTracker :=
  { r with
    data := r.data.filter (fun p => !(p.1 == name)),
    loop := r.loop.filter (fun n => !(n == name)) }

/-! ## Monitor state and event/alert emission (monitor.go) -/

/-- The reducer's mutable state: the store and the restart tracker. -/
structure MonState where
  store : StoreState
  tracker : RestartTracker
  deriving DecidableEq, Repr

/-- The container resolution shared by `Monitor.emitEvent` and
`Monitor.emitAlertRecord` (monitor.go:667-677 and 756-766): look up by the
engine id when present, then fall back to the name. -/
def resolveFor (s : StoreState) (cid nm : String) : Option Container :=
  match (if !(cid == "") then getContainerByContainerID s cid else none) with
  | some c => some c
  | none => getContainer s nm

/-- `Monitor.emitEvent` (monitor.go:666-753): resolve the container by
engine id, then by name; drop the event if neither resolves; otherwise
overwrite the denormalized name and surrogate pointer and append.
(The broadcast and count queries have no effect on the store.) -/
def emitEventM (s : StoreState) (e : Event) : StoreState :=
  match resolveFor s e.containerId e.container with
  | none => s
  | some c => (addEvent s { e with container := c.name, containerPK := c.id }).1

/-- `Monitor.emitAlertRecord` (monitor.go:755-835): same resolution as
`emitEvent`, appending to the alerts table. -/
def emitAlertRecordM (s : StoreState) (a : Alert) : StoreState :=
  match resolveFor s a.containerId a.container with
  | none => s
  | some c => (addAlert s { a with container := c.name, containerPK := c.id }).1

/-- `Monitor.emitInfo` (monitor.go:636-651): informational event, severity
`blue`, stamped `now`. -/
def emitInfoM (s : StoreState) (name id eventType message oldImage newImage
    oldImageId newImageId reason : String) (exitCode : Option Int)
    (now : Int) : StoreState :=
  emitEventM s
    { defEvent with
      container := name,
      containerId := id,
      type := eventType,
      severity := "blue",
      message := message,
      timestamp := now,
      oldImage := oldImage,
      newImage := newImage,
      oldImageId := oldImageId,
      newImageId := newImageId,
      reason := reason,
      exitCode := exitCode }

/-- `Monitor.emitAlert` (monitor.go:653-664). -/
def emitAlertM (s : StoreState) (name id alertType message severity : String)
    (exitCode : Option Int) (now : Int) : StoreState :=
  emitAlertRecordM s
    { defEvent with
      container := name,
      containerId := id,
      type := alertType,
      severity := severity,
      message := message,
      timestamp := now,
      exitCode := exitCode }

/-! ## Reducer handlers (monitor.go) -/

/-- `Monitor.handleCreate` (monitor.go:207-258), snapshot merge before the
recreate branch (lines 216-233): carry `registered_at`, `started_at`,
`unhealthy_since` and `restart_loop_since` from the existing row, default
`registered_at` for a fresh name, and fix up `unhealthy_since` from the
new health status. -/
def createBase (ins : InspectResponse) (name : String)
    (existing? : Option Container) (now : Int) : Container :=
  let newInfo0 : Container := { inspectToContainer ins now with name := name }
  let newInfo1 : Container :=
    match existing? with
    | some ex =>
      let a : Container := { newInfo0 with registeredAt := ex.registeredAt }
      let b : Container := if a.startedAt = 0 then { a with startedAt := ex.startedAt } else a
      let c : Container := { b with unhealthySince := ex.unhealthySince }
      let d : Container := if ¬(lowerStr c.healthStatus == "unhealthy") then
                 { c with unhealthySince := 0 } else c
      { d with restartLoopSince := ex.restartLoopSince }
    | none => { newInfo0 with registeredAt := minTime newInfo0.createdAt now }
  if lowerStr newInfo1.healthStatus == "unhealthy" ∧ newInfo1.unhealthySince = 0
  then { newInfo1 with unhealthySince := now } else newInfo1

/-- `Monitor.handleCreate` recreate branch (monitor.go:236-245): carry the
persisted loop state forward across the engine-id rotation, or zero it if
the old row was not in a loop. -/
def recreateAdjust (ex : Container) (c : Container) : Container :=
  if ex.restartLoop then
    { c with
      restartLoop := true,
      restartStreak := ex.restartStreak,
      restartLoopSince := ex.restartLoopSince }
  else
    { c with restartLoop := false, restartStreak := 0, restartLoopSince := 0 }

/-- `Monitor.handleCreate` (monitor.go:207-258). -/
def handleCreate (m : MonState) (name id : String)
    (ins? : Option InspectResponse) (now : Int) : MonState :=
  match ins? with
  | none => m
  | some ins =>
    let existing? := getContainer m.store name
    let newInfo := createBase ins name existing? now
    match existing? with
    | some ex =>
      if !(ex.containerId == id) then
        let tr := trackerReset m.tracker name
        let newInfo2 := recreateAdjust ex newInfo
        let imageChanged :=
          !(ex.imageId == newInfo2.imageId) || !(ex.imageTag == newInfo2.imageTag)
        let s1 :=
          if imageChanged then
            emitAlertM
              (emitInfoM m.store name id "image_changed"
                ("Image changed " ++ ex.image ++ " -> " ++ newInfo2.image)
                ex.image newInfo2.image ex.imageId newInfo2.imageId "recreate" none now)
              name id "image_changed" "Container image updated" "blue" none now
          else
            emitInfoM m.store name id "recreated" "Container recreated"
              ex.image newInfo2.image ex.imageId newInfo2.imageId "recreate" none now
        let s2 := emitAlertM s1 name id "recreated" "Container recreated" "blue" none now
        let s3 := upsertContainer s2 newInfo2 now
        let s4 := emitInfoM s3 name id "created" "Container created" "" "" "" "" "create" none now
        ⟨s4, tr⟩
      else
        let s3 := upsertContainer m.store newInfo now
        let s4 := emitInfoM s3 name id "created" "Container created" "" "" "" "" "create" none now
        ⟨s4, m.tracker⟩
    | none =>
      let s3 := upsertContainer m.store newInfo now
      let s4 := emitInfoM s3 name id "created" "Container created" "" "" "" "" "create" none now
      ⟨s4, m.tracker⟩

/-- `Monitor.handleStart` snapshot merge (monitor.go:265-297). -/
def startRow (ins : InspectResponse) (name : String) (auto : Bool)
    (existing? : Option Container) (now : Int) : Container :=
  let info0 : Container := { inspectToContainer ins now with name := name }
  let info1 : Container := if !auto then
      { info0 with restartLoop := false, restartStreak := 0, restartLoopSince := 0 }
    else info0
  let info2 : Container :=
    match existing? with
    | some ex =>
      let a : Container := { info1 with registeredAt := ex.registeredAt }
      let b : Container := if a.startedAt = 0 then { a with startedAt := ex.startedAt } else a
      let c : Container := { b with unhealthySince := ex.unhealthySince }
      let d : Container := if ¬(lowerStr c.healthStatus == "unhealthy") then
                 { c with unhealthySince := 0 } else c
      if auto then
        { d with
          restartLoop := ex.restartLoop,
          restartStreak := ex.restartStreak,
          restartLoopSince := ex.restartLoopSince }
      else d
    | none => info1
  let info3 : Container :=
    if lowerStr info2.healthStatus == "unhealthy" ∧ info2.unhealthySince = 0
    then { info2 with unhealthySince := now } else info2
  let info4 : Container := if info3.registeredAt = 0 then
      { info3 with registeredAt := minTime info3.createdAt now } else info3
  if info4.startedAt = 0 then { info4 with startedAt := now } else info4

/-- `Monitor.handleStart` (monitor.go:260-300). -/
def handleStart (m : MonState) (name id : String)
    (ins? : Option InspectResponse) (now : Int) : MonState :=
  match ins? with
  | none => m
  | some ins =>
    let auto := hasAutoRestartPolicy ins
    let tr := if !auto then trackerReset m.tracker name else m.tracker
    let info := startRow ins name auto (getContainer m.store name) now
    let s1 := upsertContainer m.store info now
    let s2 := emitInfoM s1 name id "started" "Container started" "" "" "" "" "start" none now
    ⟨s2, tr⟩

/-- `Monitor.handleStop` snapshot merge (monitor.go:533-551). -/
def stopRow (ins : InspectResponse) (name : String)
    (existing? : Option Container) (now : Int) : Container :=
  let info0 : Container := { inspectToContainer ins now with name := name }
  let info1 : Container :=
    match existing? with
    | some ex =>
      { info0 with
        registeredAt := ex.registeredAt,
        startedAt := ex.startedAt,
        unhealthySince := ex.unhealthySince,
        restartLoop := ex.restartLoop,
        restartStreak := ex.restartStreak,
        restartLoopSince := ex.restartLoopSince }
    | none => info0
  let info2 : Container := if ¬(lowerStr info1.healthStatus == "unhealthy") then
      { info1 with unhealthySince := 0 } else info1
  let info3 : Container := if info2.registeredAt = 0 then
      { info2 with registeredAt := minTime info2.createdAt now } else info2
  if info3.startedAt = 0 then { info3 with startedAt := now } else info3

/-- The failed-inspect fallback write (monitor.go:517-524 and 559-566):
mark the cached row exited. -/
def exitedRow (ex : Container) (now : Int) : Container :=
  let ex1 : Container := { ex with status := "exited", updatedAt := now }
  if ex1.registeredAt = 0 then
    { ex1 with registeredAt := minTime ex1.createdAt now } else ex1

/-- `Monitor.handleStop` (monitor.go:527-567). -/
def handleStop (m : MonState) (name id : String) (exitCode : Option Int)
    (ins? : Option InspectResponse) (now : Int) : MonState :=
  let s0 := emitInfoM m.store name id "stopped" "Container stopped" "" "" "" "" "stop" exitCode now
  match ins? with
  | some ins =>
    let info := stopRow ins name (getContainer s0 name) now
    let s1 := upsertContainer s0 info now
    let s2 :=
      if shouldAlertNoRestartPolicyFailure "stop" exitCode ins then
        emitAlertM s1 name id "failure_no_restart"
          "Container failed without restart policy" "red" exitCode now
      else s1
    ⟨s2, m.tracker⟩
  | none =>
    match getContainer s0 name with
    | some ex => ⟨upsertContainer s0 (exitedRow ex now) now, m.tracker⟩
    | none => ⟨s0, m.tracker⟩

/-- `Monitor.handleSignal` (monitor.go:569-577). -/
def handleSignal (m : MonState) (name id sig : String) (now : Int) : MonState :=
  let pair := if !(sig == "") then
      ("Signal sent: " ++ sig, "signal_" ++ lowerStr sig)
    else ("Signal sent", "signal")
  ⟨emitInfoM m.store name id "signal" pair.1 "" "" "" "" pair.2 none now, m.tracker⟩

/-- `Monitor.handleHealth` inspect-success write (monitor.go:360-383):
merge the snapshot with the cached row and recompute `unhealthy_since`
from the new health status. -/
def healthRowInspect (ins : InspectResponse) (name : String)
    (existing? : Option Container) (now : Int) : Container :=
  let info0 : Container := { inspectToContainer ins now with name := name }
  let info1 : Container :=
    match existing? with
    | some ex =>
      { info0 with
        registeredAt := ex.registeredAt,
        startedAt := ex.startedAt,
        unhealthySince := ex.unhealthySince,
        restartLoop := ex.restartLoop,
        restartStreak := ex.restartStreak,
        restartLoopSince := ex.restartLoopSince }
    | none => info0
  let info2 : Container :=
    if lowerStr info1.healthStatus == "unhealthy" then
      (if info1.unhealthySince = 0 then { info1 with unhealthySince := now } else info1)
    else { info1 with unhealthySince := 0 }
  if info2.registeredAt = 0 then
    { info2 with registeredAt := minTime info2.createdAt now } else info2

/-- `Monitor.handleHealth` fallback write without inspect
(monitor.go:384-397): mutate the cached row in place. -/
def healthRowNoInspect (ex : Container) (status : String) (prevStreak : Int)
    (now : Int) : Container :=
  let ex1 : Container := { ex with healthStatus := status }
  let ex2 : Container :=
    if status == "unhealthy" then
      { ex1 with
        healthFailingStreak := prevStreak + 1,
        unhealthySince := if ex1.unhealthySince = 0 then now else ex1.unhealthySince }
    else if status == "healthy" then
      { ex1 with healthFailingStreak := 0, unhealthySince := 0 }
    else ex1
  { ex2 with updatedAt := now }

/-- The alert switch of `Monitor.handleHealth` (monitor.go:399-412). -/
def emitHealthAlerts (s : StoreState) (status prevStatus : String)
    (prevStreak : Int) (name id : String) (now : Int) : StoreState :=
  if status == "unhealthy" then
    (if ¬(prevStatus == "unhealthy") then
      emitAlertM s name id "unhealthy" "Container became unhealthy" "red" none now
    else s)
  else if status == "healthy" then
    (if prevStatus == "unhealthy" ∨ prevStreak > 0 then
      emitAlertM s name id "healthy"
        (if prevStreak > 0 then
          "Container became healthy after " ++ toString prevStreak ++ " failed checks"
        else "Container became healthy") "green" none now
    else s)
  else s

/-- `Monitor.handleHealth` (monitor.go:350-413). -/
def handleHealth (m : MonState) (name id status0 : String)
    (ins? : Option InspectResponse) (now : Int) : MonState :=
  let status1 := trimStr (lowerStr status0)
  let existing? := getContainer m.store name
  let prev := match existing? with
    | some ex => (lowerStr ex.healthStatus, ex.healthFailingStreak)
    | none => ("", (0 : Int))
  match ins? with
  | some ins =>
    let info := healthRowInspect ins name existing? now
    let s1 := upsertContainer m.store info now
    ⟨emitHealthAlerts s1 (lowerStr info.healthStatus) prev.1
       (maxI prev.2 info.healthFailingStreak) name id now, m.tracker⟩
  | none =>
    match existing? with
    | some ex =>
      let s1 := upsertContainer m.store (healthRowNoInspect ex status1 prev.2 now) now
      ⟨emitHealthAlerts s1 status1 prev.1 prev.2 name id now, m.tracker⟩
    | none => ⟨emitHealthAlerts m.store status1 prev.1 prev.2 name id now, m.tracker⟩

/-- The cached-row update of `Monitor.handleRestartLike`
(monitor.go:440-460). -/
def restartCacheRow (c : Container) (inLoop : Bool) (streak : Int)
    (entered : Bool) (now : Int) : Container :=
  let c1 : Container := { c with restartLoop := inLoop }
  let c2 : Container :=
    if inLoop then
      (if c1.restartStreak ≤ 0 ∨ entered then { c1 with restartStreak := streak }
       else { c1 with restartStreak := c1.restartStreak + 1 })
    else { c1 with restartStreak := streak }
  let c3 : Container :=
    if inLoop then
      (if c2.restartLoopSince = 0 then { c2 with restartLoopSince := now } else c2)
    else { c2 with restartLoopSince := 0 }
  { c3 with updatedAt := now }

/-- The inspect-success snapshot write of `Monitor.handleRestartLike`
(monitor.go:478-510). -/
def restartInspectRow (ins : InspectResponse) (name : String) (inLoop : Bool)
    (streak : Int) (existing? : Option Container) (now : Int) : Container :=
  let info0 : Container := { inspectToContainer ins now with name := name }
  let merged : Container × Int :=
    match existing? with
    | some ex =>
      let a : Container :=
        { info0 with
          registeredAt := ex.registeredAt,
          startedAt := ex.startedAt,
          unhealthySince := ex.unhealthySince }
      let b : Container := if ¬(lowerStr a.healthStatus == "unhealthy") then
          { a with unhealthySince := 0 } else a
      let c : Container :=
        if lowerStr b.healthStatus == "unhealthy" ∧ b.unhealthySince = 0 then
          { b with unhealthySince := now } else b
      ({ c with restartLoopSince := ex.restartLoopSince }, ex.restartStreak)
    | none => (info0, streak)
  let info1 : Container :=
    { merged.1 with restartLoop := inLoop, restartStreak := merged.2 }
  let info2 : Container :=
    if inLoop then
      (if info1.restartLoopSince = 0 then { info1 with restartLoopSince := now }
       else info1)
    else { info1 with restartLoopSince := 0 }
  let info3 : Container := if info2.registeredAt = 0 then
      { info2 with registeredAt := minTime info2.createdAt now } else info2
  if info3.startedAt = 0 then { info3 with startedAt := now } else info3

/-- `Monitor.handleRestartLike` (monitor.go:415-525). -/
def handleRestartLike (m : MonState) (name id reason : String)
    (exitCode : Option Int) (signal : String) (ins? : Option InspectResponse)
    (now : Int) : MonState :=
  let hasAuto := match ins? with
    | some ins => hasAutoRestartPolicy ins
    | none => false
  let wasInLoop := match getContainer m.store name with
    | some ex => ex.restartLoop
    | none => false
  let tr1 := if !hasAuto then trackerReset m.tracker name else m.tracker
  let rec? := if hasAuto then some (trackerRecord tr1 name now) else none
  let tr2 := match rec? with
    | some r => r.1
    | none => tr1
  let streak : Int := match rec? with
    | some r => r.2.1
    | none => 0
  let entered : Bool := match rec? with
    | some r => r.2.2
    | none => false
  let inLoop := hasAuto && (trackerInLoop tr2 name || wasInLoop)
  let message := if !(signal == "") then
      "Restart event: " ++ reason ++ " (signal " ++ signal ++ ")"
    else "Restart event: " ++ reason
  let s1 := emitInfoM m.store name id "restart" message "" "" "" "" reason exitCode now
  let s2 := match getContainer s1 name with
    | some c => upsertContainer s1 (restartCacheRow c inLoop streak entered now) now
    | none => s1
  let s3 := if reason == "oom" then
      emitAlertM s2 name id "oom_killed" "Container killed by OOM" "red" exitCode now
    else s2
  let s4 := if entered && !wasInLoop then
      emitAlertRecordM s3
        { defEvent with
          container := name,
          containerId := id,
          type := "restart_loop",
          severity := "red",
          message := "Restart loop detected",
          timestamp := now,
          detailsJSON := restartCountJSON streak }
    else s3
  match ins? with
  | some ins =>
    let info := restartInspectRow ins name inLoop streak (getContainer s4 name) now
    let s5 := upsertContainer s4 info now
    let s6 :=
      if shouldAlertNoRestartPolicyFailure reason exitCode ins then
        emitAlertM s5 name id "failure_no_restart"
          "Container failed without restart policy" "red" exitCode now
      else s5
    ⟨s6, tr2⟩
  | none =>
    match getContainer s4 name with
    | some ex => ⟨upsertContainer s4 (exitedRow ex now) now, tr2⟩
    | none => ⟨s4, tr2⟩

/-- The snapshot handed to `Store.RenameContainer` by `Monitor.handleRename`
(monitor.go:314-343). -/
def renameInfo (ins : InspectResponse) (newName : String)
    (old? target? : Option Container) (now : Int) : Container :=
  let info0 : Container := { inspectToContainer ins now with name := newName }
  let info1 : Container :=
    match old? with
    | some ex =>
      { info0 with
        registeredAt := ex.registeredAt,
        startedAt := ex.startedAt,
        lastEventId := ex.lastEventId }
    | none => info0
  let info2 : Container :=
    match target? with
    | some t =>
      let a : Container :=
        if t.restartLoop then
          { info1 with
            restartLoop := true,
            restartLoopSince := t.restartLoopSince,
            restartStreak := if info1.restartStreak < t.restartStreak then
                t.restartStreak else info1.restartStreak }
        else info1
      if lowerStr t.healthStatus == "unhealthy" then
        { a with
          healthStatus := t.healthStatus,
          healthFailingStreak := maxI a.healthFailingStreak t.healthFailingStreak,
          unhealthySince := t.unhealthySince }
      else a
    | none => info1
  if info2.registeredAt = 0 then
    { info2 with registeredAt := minTime info2.createdAt now } else info2

/-- `Monitor.handleRename` (monitor.go:302-348). -/
def handleRename (m : MonState) (oldName0 newName0 actorId : String)
    (ins? : Option InspectResponse) (now : Int) : MonState :=
  if oldName0 = "" ∨ newName0 = "" then m else
  let oldName := trimPre "/" oldName0
  let newName := trimPre "/" newName0
  let target? := getContainer m.store newName
  match ins? with
  | none => m
  | some ins =>
    let info := renameInfo ins newName (getContainer m.store oldName)
      target? now
    let tr := trackerReset (trackerReset m.tracker oldName) newName
    let s1 := renameContainer m.store oldName newName info now
    let s2 := emitInfoM s1 newName actorId "renamed"
      ("Container renamed " ++ oldName ++ " -> " ++ newName)
      "" "" "" "" "rename" none now
    ⟨s2, tr⟩

/-! ## Heal scanner (monitor.go:593-634) -/

/-- One iteration of the `checkHeals` loop body for the snapshot row `c`. -/
def checkHealsStep (window now : Int) (m : MonState) (c : Container) : MonState :=
  if ¬c.restartLoop then m
  else if ¬(lowerStr c.status == "running") then m
  else
    let heal := match getLatestRestartTs m.store c.id with
      | some last => decide (now - last > window)
      | none => true
    if heal then
      let streak := c.restartStreak
      let cleared : Container :=
        { c with
          restartLoop := false,
          restartStreak := 0,
          restartLoopSince := 0,
          updatedAt := now }
      let s1 := upsertContainer m.store cleared now
      let tr := trackerMarkHealed m.tracker c.name
      let message := if streak > 0 then
          "Restart loop healed after " ++ toString streak ++ " restarts"
        else "Restart loop healed"
      let s2 := emitAlertRecordM s1
        { defEvent with
          container := c.name,
          containerId := c.containerId,
          type := "restart_healed",
          severity := "green",
          message := message,
          timestamp := now,
          detailsJSON := restartCountJSON streak }
      ⟨s2, tr⟩
    else m

/-- `Monitor.checkHeals` (monitor.go:593-634): walk the snapshot of present
containers, healing each currently-looping running container whose latest
`restart` event is absent or older than the window. -/
def checkHeals (window now : Int) (m : MonState) : MonState :=
  (listContainers m.store).foldl (checkHealsStep window now) m

/-! ## Event classification (monitor.go:157-205) -/

/-- An engine event message (`events.Message`), with the attribute keys the
monitor reads lifted to fields. -/
structure Msg where
  typ : String
  action : String
  actorId : String
  attrName : String
  attrOldName : String
  attrSignal : String
  attrExitCode : String
  attrExecCommand : String
  deriving DecidableEq, Repr

/-- `isHealthcheckExecEvent` (monitor.go:986-997). -/
def isHealthcheckExecEvent (msg : Msg) : Bool :=
  if ¬hasPre msg.action "exec_" then false
  else if msg.attrExecCommand == "" then false
  else containsStr (lowerStr msg.attrExecCommand) "healthcheck"

/-- The handler `Monitor.handleEvent` would dispatch a message to, as a
closed sum. -/
inductive Dispatch where
  | ignored
  | createD (name id : String)
  | startD (name id : String)
  | stopD (name id : String) (exitCode : Option Int)
  | restartLikeD (name id reason : String) (exitCode : Option Int) (signal : String)
  | signalD (name id sig : String)
  | healthD (name id status : String)
  | renameD (name : String)
  | absentD (name : String)
  deriving DecidableEq, Repr

/-- The name resolution of `Monitor.handleEvent` (monitor.go:158-168):
attribute name, falling back to a cache lookup by engine id, empty when
unresolved; the leading `/` is stripped. -/
def resolveName (s : StoreState) (msg : Msg) : String :=
  let name0 := msg.attrName
  let name1 :=
    if name0 == "" ∧ ¬(msg.actorId == "") then
      match findContainerByID s msg.actorId with
      | some c => c.name
      | none => ""
    else name0
  if name1 == "" then "" else trimPre "/" name1

/-- `Monitor.handleEvent` (monitor.go:157-205) as a total classification
function: which handler runs, with which arguments.  Non-container
messages, unresolvable names and healthcheck-exec noise are dropped. -/
def classify (s : StoreState) (msg : Msg) : Dispatch :=
  if ¬(msg.typ == "container") then .ignored else
  let name := resolveName s msg
  if name == "" then .ignored else
  if isHealthcheckExecEvent msg then .ignored else
  if msg.action == "create" then .createD name msg.actorId
  else if msg.action == "start" then .startD name msg.actorId
  else if msg.action == "stop" then .stopD name msg.actorId (parseExitCode msg.attrExitCode)
  else if msg.action == "die" then
    match parseExitCode msg.attrExitCode with
    | none => .stopD name msg.actorId none
    | some v =>
      if v = 0 then .stopD name msg.actorId (some v)
      else .restartLikeD name msg.actorId "die" (some v) ""
  else if msg.action == "restart" then .restartLikeD name msg.actorId "restart" none ""
  else if msg.action == "oom" then .restartLikeD name msg.actorId "oom" none ""
  else if msg.action == "kill" then .signalD name msg.actorId (trimStr msg.attrSignal)
  else if hasPre msg.action "health_status:" then
    .healthD name msg.actorId (trimStr (trimPre "health_status:" msg.action))
  else if msg.action == "rename" then .renameD name
  else if msg.action == "destroy" ∨ msg.action == "remove" ∨ msg.action == "rm" then
    .absentD name
  else .ignored

/-! ## Reducer step -/

/-- A reducer operation: a classified action together with the inspect
oracle answer and, for `healOp`, the heal-scanner tick. -/
inductive Op where
  | createdOp (name id : String) (ins : Option InspectResponse)
  | startedOp (name id : String) (ins : Option InspectResponse)
  | stoppedOp (name id : String) (exitCode : Option Int) (ins : Option InspectResponse)
  | restartOp (name id reason : String) (exitCode : Option Int) (signal : String)
      (ins : Option InspectResponse)
  | signalOp (name id sig : String)
  | healthOp (name id status : String) (ins : Option InspectResponse)
  | renameOp (oldName newName actorId : String) (ins : Option InspectResponse)
  | absentOp (name : String)
  | healOp
  deriving DecidableEq, Repr

/-- Whether the operation is the RENAME write path. -/
def Op.isRen : Op → Bool
  | .renameOp _ _ _ _ => true
  | _ => false

/-- Whether the operation is the heal-scanner tick. -/
def Op.isHeal : Op → Bool
  | .healOp => true
  | _ => false

/-- Apply one reducer operation (the dispatch of monitor.go:176-204 plus
the heal tick of monitor.go:579-591). -/
def applyOp (m : MonState) (op : Op) (now : Int) : MonState :=
  match op with
  | .createdOp name id ins => handleCreate m name id ins now
  | .startedOp name id ins => handleStart m name id ins now
  | .stoppedOp name id exit ins => handleStop m name id exit ins now
  | .restartOp name id reason exit sig ins =>
      handleRestartLike m name id reason exit sig ins now
  | .signalOp name id sig => handleSignal m name id sig now
  | .healthOp name id status ins => handleHealth m name id status ins now
  | .renameOp oldName newName actorId ins =>
      handleRename m oldName newName actorId ins now
  | .absentOp name => ⟨setContainerPresent m.store name false now, m.tracker⟩
  | .healOp => checkHeals m.tracker.window now m

/-! ## Basic lemmas: rows stored by upsert -/

theorem upsertRow_name (s : StoreState) (c : Container) (now : Int) :
    (upsertRow s c now).name = c.name := by
  unfold upsertRow
  cases hex : getContainer s c.name <;>
    simp [hex, apply_ite Container.name]

theorem upsertRow_restartLoop (s : StoreState) (c : Container) (now : Int) :
    (upsertRow s c now).restartLoop = c.restartLoop := by
  unfold upsertRow
  cases hex : getContainer s c.name <;>
    simp [hex, apply_ite Container.restartLoop]

theorem upsertRow_restartStreak (s : StoreState) (c : Container) (now : Int) :
    (upsertRow s c now).restartStreak = c.restartStreak := by
  unfold upsertRow
  cases hex : getContainer s c.name <;>
    simp [hex, apply_ite Container.restartStreak]

theorem upsertRow_restartLoopSince (s : StoreState) (c : Container) (now : Int) :
    (upsertRow s c now).restartLoopSince = c.restartLoopSince := by
  unfold upsertRow
  cases hex : getContainer s c.name <;>
    simp [hex, apply_ite Container.restartLoopSince]

theorem upsertRow_healthStatus (s : StoreState) (c : Container) (now : Int) :
    (upsertRow s c now).healthStatus = c.healthStatus := by
  unfold upsertRow
  cases hex : getContainer s c.name <;>
    simp [hex, apply_ite Container.healthStatus]

theorem upsertRow_healthFailingStreak (s : StoreState) (c : Container) (now : Int) :
    (upsertRow s c now).healthFailingStreak = c.healthFailingStreak := by
  unfold upsertRow
  cases hex : getContainer s c.name <;>
    simp [hex, apply_ite Container.healthFailingStreak]

theorem upsertRow_unhealthySince (s : StoreState) (c : Container) (now : Int) :
    (upsertRow s c now).unhealthySince = c.unhealthySince := by
  unfold upsertRow
  cases hex : getContainer s c.name <;>
    simp [hex, apply_ite Container.unhealthySince]

theorem upsertRow_status (s : StoreState) (c : Container) (now : Int) :
    (upsertRow s c now).status = c.status := by
  unfold upsertRow
  cases hex : getContainer s c.name <;>
    simp [hex, apply_ite Container.status]

theorem upsertRow_containerId (s : StoreState) (c : Container) (now : Int) :
    (upsertRow s c now).containerId = c.containerId := by
  unfold upsertRow
  cases hex : getContainer s c.name <;>
    simp [hex, apply_ite Container.containerId]

theorem upsertRow_present (s : StoreState) (c : Container) (now : Int) :
    (upsertRow s c now).present = true := by
  unfold upsertRow
  cases hex : getContainer s c.name <;>
    simp [hex, apply_ite Container.present]

theorem upsertRow_id (s : StoreState) (c : Container) (now : Int) :
    (upsertRow s c now).id =
      (match getContainer s c.name with
       | some ex => ex.id
       | none => s.nextContainerId) := by
  unfold upsertRow
  cases hex : getContainer s c.name <;>
    simp [hex, apply_ite Container.id]

/-! ## Basic lemmas: lookups -/

/-- `List.find?_cons_of_pos` with explicit arguments. -/
theorem findPos {α : Type} (p : α → Bool) (a : α) (l : List α)
    (h : p a = true) : (a :: l).find? p = some a :=
  List.find?_cons_of_pos l h

/-- `List.find?_cons_of_neg` with explicit arguments. -/
theorem findNeg {α : Type} (p : α → Bool) (a : α) (l : List α)
    (h : p a = false) : (a :: l).find? p = l.find? p :=
  List.find?_cons_of_neg l (by simp [h])

/-- `find?` over a map that does not change the scrutinized predicate and
fixes the elements it selects. -/
theorem find?_map_congr {α : Type} (l : List α) (f : α → α) (p : α → Bool)
    (hp : ∀ x, p (f x) = p x) (hfix : ∀ x, p x = true → f x = x) :
    (l.map f).find? p = l.find? p := by
  induction l with
  | nil => rfl
  | cons a t ih =>
    simp only [List.map_cons]
    by_cases h : p a = true
    · rw [findPos p (f a) _ (by rw [hp]; exact h), findPos p a t h, hfix a h]
    · rw [findNeg p (f a) _ (by rw [hp]; simpa using h),
        findNeg p a t (by simpa using h), ih]

/-- `find?` over a name-preserving map of container rows. -/
theorem find?_name_map (l : List Container) (f : Container → Container)
    (hf : ∀ c, (f c).name = c.name) (n : String) :
    (l.map f).find? (fun c => c.name == n) =
      (l.find? (fun c => c.name == n)).map f := by
  induction l with
  | nil => rfl
  | cons a t ih =>
    simp only [List.map_cons]
    by_cases h : (a.name == n) = true
    · rw [findPos (fun c => c.name == n) (f a) _ (by simpa [hf] using h),
        findPos (fun c => c.name == n) a t h]
      rfl
    · rw [findNeg (fun c => c.name == n) (f a) _ (by simpa [hf] using h),
        findNeg (fun c => c.name == n) a t (by simpa using h), ih]

theorem find?_replace_of_isSome (l : List Container) (c : Container)
    (h : (l.find? (fun x => x.name == c.name)).isSome = true) :
    (l.map (fun x => if x.name == c.name then c else x)).find?
      (fun x => x.name == c.name) = some c := by
  induction l with
  | nil => simp at h
  | cons a t ih =>
    simp only [List.map_cons]
    by_cases ha : (a.name == c.name) = true
    · rw [if_pos ha]
      exact findPos _ c _ (by simp)
    · rw [if_neg ha]
      rw [findNeg (fun x => x.name == c.name) a _ (by simpa using ha)]
      apply ih
      rwa [findNeg (fun x => x.name == c.name) a t (by simpa using ha)] at h

theorem find?_append_single (l : List Container) (c : Container)
    (h : l.find? (fun x => x.name == c.name) = none) :
    (l ++ [c]).find? (fun x => x.name == c.name) = some c := by
  rw [List.find?_append, h, Option.none_or]
  exact findPos _ c _ (by simp)

theorem find?_putContainer_self (l : List Container) (c : Container) :
    (putContainer l c).find? (fun x => x.name == c.name) = some c := by
  unfold putContainer
  split
  · rename_i hsome
    exact find?_replace_of_isSome l c hsome
  · rename_i hnone
    exact find?_append_single l c (Option.not_isSome_iff_eq_none.mp hnone)

theorem find?_putContainer_ne (l : List Container) (c : Container) (n : String)
    (h : ¬(n = c.name)) :
    (putContainer l c).find? (fun x => x.name == n) =
      l.find? (fun x => x.name == n) := by
  unfold putContainer
  split
  · apply find?_map_congr
    · intro x
      by_cases hx : (x.name == c.name) = true
      · rw [if_pos hx]
        simp only [beq_iff_eq] at hx
        have h1 : (c.name == n) = false := by
          simp only [beq_eq_false_iff_ne, ne_eq]
          exact fun hc => h hc.symm
        have h2 : (x.name == n) = false := by
          simp only [beq_eq_false_iff_ne, ne_eq, hx]
          exact fun hc => h hc.symm
        rw [h1, h2]
      · rw [if_neg hx]
    · intro x hx
      by_cases hxc : (x.name == c.name) = true
      · exfalso
        simp only [beq_iff_eq] at hx hxc
        rw [hxc] at hx
        exact h hx.symm
      · rw [if_neg hxc]
  · rw [List.find?_append]
    cases hfind : l.find? (fun x => x.name == n) with
    | some y => simp
    | none =>
      have h1 : ((c.name == n) : Bool) = false := by
        simp only [beq_eq_false_iff_ne, ne_eq]
        exact fun hc => h hc.symm
      simp [findNeg (fun x => x.name == n) c [] h1]

theorem mem_putContainer (l : List Container) (c x : Container)
    (hx : x ∈ putContainer l c) : x = c ∨ x ∈ l := by
  unfold putContainer at hx
  split at hx
  · rcases List.mem_map.mp hx with ⟨y, hy, hfy⟩
    by_cases hyc : (y.name == c.name) = true
    · left
      rw [if_pos hyc] at hfy
      exact hfy.symm
    · right
      rw [if_neg hyc] at hfy
      rw [← hfy]
      exact hy
  · rcases List.mem_append.mp hx with hm | hm
    · right; exact hm
    · left
      simpa using hm

theorem getContainer_upsert_self (s : StoreState) (c : Container) (now : Int) :
    getContainer (upsertContainer s c now) c.name = some (upsertRow s c now) := by
  unfold upsertContainer getContainer
  simp only
  have := find?_putContainer_self s.containers (upsertRow s c now)
  rwa [upsertRow_name] at this

theorem getContainer_upsert_ne (s : StoreState) (c : Container) (now : Int)
    (n : String) (h : ¬(n = c.name)) :
    getContainer (upsertContainer s c now) n = getContainer s n := by
  unfold upsertContainer getContainer
  simp only
  apply find?_putContainer_ne
  rwa [upsertRow_name]

theorem mem_upsert (s : StoreState) (c : Container) (now : Int) (x : Container)
    (hx : x ∈ (upsertContainer s c now).containers) :
    x = upsertRow s c now ∨ x ∈ s.containers :=
  mem_putContainer _ _ _ hx

theorem upsert_events (s : StoreState) (c : Container) (now : Int) :
    (upsertContainer s c now).events = s.events := rfl

theorem upsert_alerts (s : StoreState) (c : Container) (now : Int) :
    (upsertContainer s c now).alerts = s.alerts := rfl

/-! ## Basic lemmas: event and alert emission -/

/-- Equality of the container fields that the event-append bookkeeping
(`last_event_id`, `updated_at`) never touches. -/
def coreEq (x y : Container) : Prop :=
  x.name = y.name ∧ x.id = y.id ∧ x.containerId = y.containerId ∧
  x.status = y.status ∧ x.present = y.present ∧
  x.healthStatus = y.healthStatus ∧
  x.healthFailingStreak = y.healthFailingStreak ∧
  x.unhealthySince = y.unhealthySince ∧
  x.restartLoop = y.restartLoop ∧ x.restartStreak = y.restartStreak ∧
  x.restartLoopSince = y.restartLoopSince

theorem coreEq_refl (x : Container) : coreEq x x := by
  unfold coreEq
  exact ⟨rfl, rfl, rfl, rfl, rfl, rfl, rfl, rfl, rfl, rfl, rfl⟩

theorem addEvent_containers_map (s : StoreState) (e : Event) :
    ∃ f : Container → Container,
      ((addEvent s e).1).containers = s.containers.map f ∧
      ∀ c : Container, coreEq (f c) c := by
  refine ⟨fun c => if c.name == e.container then
    { c with lastEventId := s.nextEventId, updatedAt := e.timestamp } else c,
    rfl, ?_⟩
  intro c
  dsimp only
  by_cases h : (c.name == e.container) = true
  · rw [if_pos h]
    exact ⟨rfl, rfl, rfl, rfl, rfl, rfl, rfl, rfl, rfl, rfl, rfl⟩
  · rw [if_neg h]
    exact coreEq_refl c

theorem emitEventM_containers_map (s : StoreState) (e : Event) :
    ∃ f : Container → Container,
      (emitEventM s e).containers = s.containers.map f ∧
      ∀ c : Container, coreEq (f c) c := by
  unfold emitEventM
  cases hres : resolveFor s e.containerId e.container with
  | none =>
    exact ⟨id, by simp, fun c => coreEq_refl c⟩
  | some c =>
    exact addEvent_containers_map s _

theorem emitEventM_alerts (s : StoreState) (e : Event) :
    (emitEventM s e).alerts = s.alerts := by
  unfold emitEventM
  cases resolveFor s e.containerId e.container <;> rfl

theorem emitAlertRecordM_containers (s : StoreState) (a : Alert) :
    (emitAlertRecordM s a).containers = s.containers := by
  unfold emitAlertRecordM
  cases resolveFor s a.containerId a.container <;> rfl

theorem emitAlertRecordM_events (s : StoreState) (a : Alert) :
    (emitAlertRecordM s a).events = s.events := by
  unfold emitAlertRecordM
  cases resolveFor s a.containerId a.container <;> rfl

/-- The alerts list produced by `emitAlertRecord`: either unchanged (the
container did not resolve) or the stored row prepended. -/
theorem emitAlertRecordM_alerts (s : StoreState) (a : Alert) :
    (emitAlertRecordM s a).alerts =
      match resolveFor s a.containerId a.container with
      | none => s.alerts
      | some c =>
        { a with
          container := c.name,
          containerPK := c.id,
          id := s.nextAlertId,
          timestamp := dbTime a.timestamp } :: s.alerts := by
  unfold emitAlertRecordM addAlert
  cases resolveFor s a.containerId a.container <;> rfl

theorem resolveFor_isSome (s : StoreState) (cid nm : String)
    (h : (getContainer s nm).isSome = true) :
    (resolveFor s cid nm).isSome = true := by
  unfold resolveFor
  split
  · rfl
  · exact h

/-- `getContainer` through a name-preserving, core-preserving rewrite of
the container rows. -/
theorem getContainer_map_core (s : StoreState) (f : Container → Container)
    (hf : ∀ c : Container, coreEq (f c) c) (n : String) :
    ({ s with containers := s.containers.map f } : StoreState).containers.find?
        (fun c => c.name == n) =
      (s.containers.find? (fun c => c.name == n)).map f := by
  exact find?_name_map s.containers f (fun c => (hf c).1) n

theorem getContainer_emitEventM (s : StoreState) (e : Event) (n : String) :
    ∃ f : Container → Container,
      getContainer (emitEventM s e) n = (getContainer s n).map f ∧
      ∀ c : Container, coreEq (f c) c := by
  rcases emitEventM_containers_map s e with ⟨f, hmap, hcore⟩
  refine ⟨f, ?_, hcore⟩
  unfold getContainer
  rw [hmap]
  exact find?_name_map s.containers f (fun c => (hcore c).1) n

theorem getContainer_emitAlertRecordM (s : StoreState) (a : Alert) (n : String) :
    getContainer (emitAlertRecordM s a) n = getContainer s n := by
  unfold getContainer
  rw [emitAlertRecordM_containers]

theorem setContainerPresent_containers_map (s : StoreState) (name : String)
    (present : Bool) (now : Int) :
    ∃ f : Container → Container,
      (setContainerPresent s name present now).containers = s.containers.map f ∧
      ∀ c : Container,
        (f c).name = c.name ∧ (f c).restartLoop = c.restartLoop ∧
        (f c).restartLoopSince = c.restartLoopSince ∧
        (f c).healthStatus = c.healthStatus ∧
        (f c).unhealthySince = c.unhealthySince := by
  unfold setContainerPresent
  split
  · exact ⟨id, by simp, fun c => ⟨rfl, rfl, rfl, rfl, rfl⟩⟩
  · refine ⟨fun c => if c.name == name then
      { c with present := present, updatedAt := now } else c, rfl, ?_⟩
    intro c
    dsimp only
    by_cases h : (c.name == name) = true
    · rw [if_pos h]
      exact ⟨rfl, rfl, rfl, rfl, rfl⟩
    · rw [if_neg h]
      exact ⟨rfl, rfl, rfl, rfl, rfl⟩

/-! ## Sorting lemmas for the descending-id page queries -/

theorem mem_insertDescBy (key : Event → Int) (x : Event) (l : List Event)
    (a : Event) : a ∈ insertDescBy key x l ↔ a = x ∨ a ∈ l := by
  induction l with
  | nil => simp [insertDescBy]
  | cons y ys ih =>
    unfold insertDescBy
    split
    · simp
    · simp only [List.mem_cons, ih]
      tauto

theorem mem_sortDescBy (key : Event → Int) (l : List Event) (a : Event) :
    a ∈ sortDescBy key l ↔ a ∈ l := by
  induction l with
  | nil => simp [sortDescBy]
  | cons x xs ih =>
    unfold sortDescBy
    rw [mem_insertDescBy]
    simp [ih]

theorem insertDescBy_eq_cons (key : Event → Int) (x : Event) (l : List Event)
    (h : ∀ y ∈ l, key y ≤ key x) : insertDescBy key x l = x :: l := by
  cases l with
  | nil => rfl
  | cons y ys =>
    unfold insertDescBy
    rw [if_pos (h y (List.mem_cons_self y ys))]

/-! ## C1 — repair of event/alert container pointers at Load -/

/-- The two seeded containers and the mismatched event row of the
repository's own store test (`TestLoadRepairsEventAssociations`): the event
carries `container_pk = 1` (victoria-logs) while its denormalized name and
engine id belong to container 2 (imapsync). -/
def fxVictoria : Container :=
  { defContainer with id := 1, name := "victoria-logs", containerId := "aaa111", image := "victoria", imageTag := "latest", imageId := "img-victoria", status := "running", role := "service", present := true }

def fxImapsync : Container :=
  { defContainer with id := 2, name := "imapsync", containerId := "bbb222", image := "imapsync", imageTag := "latest", imageId := "img-imapsync", status := "running", role := "service", present := true }

def fxMismatchedEvent : Event :=
  { defEvent with id := 1, containerPK := 1, container := "imapsync", containerId := "bbb222", type := "started", severity := "blue", message := "Container started", reason := "start" }

def fxSeedDb : StoreState :=
  { emptyStore with containers := [fxVictoria, fxImapsync], nextContainerId := 3, events := [fxMismatchedEvent], nextEventId := 2 }

/-- C1: the spec says `Load` runs a repair pass re-pointing every event or
alert row whose `container_pk` does not match the container currently
having the row's `container` name, and the repository's own test
`TestLoadRepairsEventAssociations` asserts exactly that; but the `Load` in
the source only hydrates the container cache and never writes event or
alert rows.  Evaluated at the test's seeded database, the mismatched
event still points at surrogate id 1 after `Load`, while the container
named `imapsync` has surrogate id 2. -/
theorem C1_load_performs_no_repair :
    ((storeLoad fxSeedDb).events.map (fun e => e.containerPK) = [1]) ∧
    ((getContainer (storeLoad fxSeedDb) "imapsync").map (fun c => c.id) = some 2) ∧
    (storeLoad fxSeedDb).events = fxSeedDb.events := by
  decide

/-! ## C9 — AddEvent / ListAllEvents round trip -/

/-- C9 (amended): inserting an event into a store whose event ids are below
the id counter and then listing with `before_id ≤ 0` and a positive limit
returns the inserted event first, every field identical except that the
timestamp has been truncated to whole seconds by the RFC3339 round trip. -/
theorem C9_roundtrip_first_with_truncated_timestamp (s : StoreState) (e : Event)
    (beforeID limit : Int)
    (hids : ∀ ev ∈ s.events, ev.id < s.nextEventId)
    (hnext : s.nextEventId < maxInt64)
    (hb : beforeID ≤ 0) (hl : 1 ≤ limit)
    (hc : (getContainer s e.container).isSome = true) :
    (listAllEvents (addEvent s e).1 beforeID limit).head? =
      some { e with id := s.nextEventId, timestamp := dbTime e.timestamp } := by
  have _ := hc
  unfold listAllEvents addEvent
  simp only
  rw [if_neg (by omega), if_pos hb]
  have hrow : ({ e with id := s.nextEventId, timestamp := dbTime e.timestamp } : Event).id = s.nextEventId := rfl
  have hfilter :
      (({ e with id := s.nextEventId, timestamp := dbTime e.timestamp } : Event) :: s.events).filter
          (fun ev => decide (ev.id < maxInt64)) =
        ({ e with id := s.nextEventId, timestamp := dbTime e.timestamp } : Event) :: s.events := by
    rw [List.filter_cons_of_pos (by simp only [hrow]; exact decide_eq_true hnext)]
    congr 1
    rw [List.filter_eq_self]
    intro ev hev
    exact decide_eq_true (lt_trans (hids ev hev) hnext)
  rw [hfilter]
  unfold sortDescBy
  rw [insertDescBy_eq_cons _ _ _ (by
    intro y hy
    rw [mem_sortDescBy] at hy
    exact le_of_lt (hids y hy))]
  have htake : ∃ n : Nat, limit.toNat = n + 1 := by
    refine ⟨limit.toNat - 1, ?_⟩
    omega
  rcases htake with ⟨n, hn⟩
  rw [hn, List.take_succ_cons, List.head?_cons]

/-- A one-container store and an event carrying a timestamp with a
sub-second component (1.5 s after the epoch). -/
def fxRtStore : StoreState :=
  { emptyStore with containers := [fxImapsync], nextContainerId := 3 }

def fxRtEvent : Event :=
  { defEvent with container := "imapsync", containerId := "bbb222", type := "stopped", severity := "blue", message := "Container stopped", timestamp := 1500000000, reason := "stop" }

/-- C9 (counterexample): the claim as stated requires the returned first
row to carry the identical timestamp; inserting an event stamped
1 500 000 000 ns returns it with timestamp 1 000 000 000 ns — `formatTime`
persists whole RFC3339 seconds. -/
theorem C9_counterexample_timestamp_truncated :
    ((listAllEvents (addEvent fxRtStore fxRtEvent).1 0 50).head?.map
        (fun ev => ev.timestamp) = some 1000000000) ∧
    fxRtEvent.timestamp = 1500000000 ∧
    ((listAllEvents (addEvent fxRtStore fxRtEvent).1 0 50).head?.map
        (fun ev => (ev.container, ev.type, ev.message)) =
      some ("imapsync", "stopped", "Container stopped")) := by
  decide

/-- C9 witness: the amended theorem applied at the concrete store. -/
theorem C9_roundtrip_witness :
    (∀ ev ∈ fxRtStore.events, ev.id < fxRtStore.nextEventId) ∧
    fxRtStore.nextEventId < maxInt64 ∧ (0 : Int) ≤ 0 ∧ (1 : Int) ≤ 50 ∧
    (getContainer fxRtStore fxRtEvent.container).isSome = true ∧
    (listAllEvents (addEvent fxRtStore fxRtEvent).1 0 50).head? =
      some { fxRtEvent with id := fxRtStore.nextEventId, timestamp := dbTime fxRtEvent.timestamp } :=
  ⟨by decide, by decide, by decide, by decide, by decide,
    C9_roundtrip_first_with_truncated_timestamp fxRtStore fxRtEvent 0 50
      (by decide) (by decide) (by decide) (by decide) (by decide)⟩

/-! ## C3 — sliding-window restart tracker -/

/-- On a sorted series, dropping the stale prefix is the same as filtering
out every stale entry. -/
theorem dropWhile_lt_eq_filter (l : List Int) (cut : Int)
    (hsorted : List.Sorted (· ≤ ·) l) :
    l.dropWhile (fun t => decide (t < cut)) =
      l.filter (fun t => !decide (t < cut)) := by
  induction l with
  | nil => rfl
  | cons a t ih =>
    rcases List.sorted_cons.mp hsorted with ⟨hall, htail⟩
    by_cases h : a < cut
    · rw [List.dropWhile_cons_of_pos (by simpa using h),
        List.filter_cons_of_neg (by simpa using h)]
      exact ih htail
    · rw [List.dropWhile_cons_of_neg (by simpa using h),
        List.filter_cons_of_pos (by simpa using h)]
      congr 1
      refine (List.filter_eq_self.mpr ?_).symm
      intro b hb
      have : a ≤ b := hall b hb
      simp only [Bool.not_eq_true']
      simp only [decide_eq_false_iff_not]
      omega

theorem trackerData_setData (r : RestartTracker) (name : String) (l : List Int) :
    trackerData (trackerSetData r name l) name = l := by
  unfold trackerData trackerSetData
  rw [findPos (fun p => p.1 == name) (name, l) _ (by simp)]

theorem trackerData_setLoop (r : RestartTracker) (name n : String) :
    trackerData (trackerSetLoop r name) n = trackerData r n := rfl

theorem trackerInLoop_setData (r : RestartTracker) (name : String)
    (l : List Int) (n : String) :
    trackerInLoop (trackerSetData r name l) n = trackerInLoop r n := rfl

theorem trackerInLoop_setLoop_self (r : RestartTracker) (name : String) :
    trackerInLoop (trackerSetLoop r name) name = true := by
  unfold trackerInLoop trackerSetLoop
  simp [List.contains_cons]

theorem contains_filter_ne (l : List String) (name : String) :
    (l.filter (fun n => !(n == name))).contains name = false := by
  induction l with
  | nil => rfl
  | cons a t ih =>
    by_cases h : (a == name) = true
    · rw [List.filter_cons_of_neg (by simp [h])]
      exact ih
    · rw [List.filter_cons_of_pos (by simp [h]), List.contains_cons]
      simp only [Bool.or_eq_false_iff]
      constructor
      · simpa [BEq.comm] using h
      · exact ih

theorem find?_filter_ne {α : Type} (l : List α) (p : α → Bool) :
    (l.filter (fun x => !(p x))).find? p = none := by
  rw [List.find?_eq_none]
  intro x hx
  have := List.of_mem_filter hx
  simpa using this

theorem trackerInLoop_markHealed (r : RestartTracker) (name : String) :
    trackerInLoop (trackerMarkHealed r name) name = false := by
  unfold trackerInLoop trackerMarkHealed
  exact contains_filter_ne r.loop name

theorem trackerData_markHealed (r : RestartTracker) (name : String) :
    trackerData (trackerMarkHealed r name) name = [] := by
  unfold trackerData trackerMarkHealed
  simp only
  rw [find?_filter_ne r.data (fun p => p.1 == name)]

/-- The behavior the spec ascribes to one `record(name, ts)` call, phrased
over the window contents after pruning: the stored series is the pruned
series, the returned streak is its length, `entered_loop` is reported
exactly when the threshold is reached while the in-loop flag was not yet
set, and the flag afterwards is the old flag joined with the threshold
test. -/
def recordSpec (r : RestartTracker) (name : String) (ts : Int) : Prop :=
  let out := trackerRecord r name ts
  let pruned := (trackerData r name ++ [ts]).filter
    (fun t => !decide (t < ts - r.window))
  trackerData out.1 name = pruned ∧
  out.2.1 = (pruned.length : Int) ∧
  (out.2.2 = true ↔
    ((pruned.length : Int) ≥ r.threshold ∧ trackerInLoop r name = false)) ∧
  trackerInLoop out.1 name =
    (trackerInLoop r name || decide ((pruned.length : Int) ≥ r.threshold))

/-- C3: for a tracker whose stored series for `name` is sorted and bounded
by the new timestamp (as holds for any sequence of `record` calls with
non-decreasing timestamps), `record` appends, prunes entries older than
`ts - W`, returns the window length as streak and `entered_loop = true`
exactly when the pruned window reaches the threshold with the in-loop flag
not already set; `markHealed` clears both the series and the flag, so the
next threshold crossing reports `entered_loop = true` again. -/
theorem C3_record_sliding_window (r : RestartTracker) (name : String) (ts : Int)
    (hsorted : List.Sorted (· ≤ ·) (trackerData r name))
    (hle : ∀ t ∈ trackerData r name, t ≤ ts) :
    recordSpec r name ts ∧
    trackerData (trackerMarkHealed r name) name = [] ∧
    trackerInLoop (trackerMarkHealed r name) name = false := by
  refine ⟨?_, trackerData_markHealed r name, trackerInLoop_markHealed r name⟩
  have hsorted2 : List.Sorted (· ≤ ·) (trackerData r name ++ [ts]) := by
    unfold List.Sorted at hsorted ⊢
    rw [List.pairwise_append]
    refine ⟨hsorted, List.pairwise_singleton _ _, ?_⟩
    intro a ha b hb
    rw [List.mem_singleton] at hb
    rw [hb]
    exact hle a ha
  have hprune : trackerPrune r.window (trackerData r name ++ [ts]) ts =
      (trackerData r name ++ [ts]).filter (fun t => !decide (t < ts - r.window)) := by
    unfold trackerPrune
    exact dropWhile_lt_eq_filter _ _ hsorted2
  unfold recordSpec trackerRecord
  simp only [hprune]
  refine ⟨?_, by trivial, ?_, ?_⟩
  · split
    · rw [trackerData_setLoop, trackerData_setData]
    · rw [trackerData_setData]
  · simp [Bool.and_eq_true, Bool.not_eq_true', decide_eq_true_eq]
  · split
    · rename_i hhit
      rw [trackerInLoop_setLoop_self]
      simp only [hhit, Bool.or_true]
    · rename_i hhit
      rw [trackerInLoop_setData]
      simp only [Bool.not_eq_true] at hhit
      rw [hhit, Bool.or_false]

/-- A tracker mid-window: window 30 s, threshold 3, two prior restarts. -/
def fxTracker : RestartTracker :=
  { window := 30 * nsPerSec, threshold := 3
  , data := [("web", [5 * nsPerSec, 12 * nsPerSec])], loop := [] }

/-- C3 witness: the third restart at t = 20 s crosses the threshold. -/
theorem C3_record_witness :
    List.Sorted (· ≤ ·) (trackerData fxTracker "web") ∧
    (∀ t ∈ trackerData fxTracker "web", t ≤ 20 * nsPerSec) ∧
    (recordSpec fxTracker "web" (20 * nsPerSec) ∧
      trackerData (trackerMarkHealed fxTracker "web") "web" = [] ∧
      trackerInLoop (trackerMarkHealed fxTracker "web") "web" = false) :=
  ⟨by decide, by decide,
    C3_record_sliding_window fxTracker "web" (20 * nsPerSec) (by decide) (by decide)⟩

/-! ## C10 — die events with unparsable exit codes -/

/-- The claim's "decimal integer": an optional sign followed by at least
one decimal digit — exactly the strings the modelled `strconv.Atoi`
accepts. -/
def isDecimalInt (s : String) : Bool :=
  match s.data with
  | [] => false
  | c :: rest =>
    let signed : Bool := c = '-' ∨ c = '+'
    let ds := if signed then rest else c :: rest
    !(ds.isEmpty) && ds.all Char.isDigit

theorem goAtoi_eq_none_iff (s : String) :
    goAtoi s = none ↔ isDecimalInt s = false := by
  unfold goAtoi isDecimalInt
  cases s.data with
  | nil => simp
  | cons c rest =>
    simp only
    by_cases h1 : (if (decide (c = '-' ∨ c = '+') : Bool) = true then rest else c :: rest) = []
    · simp [h1]
    · by_cases h2 : ((if (decide (c = '-' ∨ c = '+') : Bool) = true then rest else c :: rest).all Char.isDigit) = true
      · simp [h1, h2]
      · simp [h1, h2]

/-- C10: a container `die` message whose exitCode attribute is empty or
not a decimal integer is dispatched to the clean-stop handler with the
exit code absent, or dropped when the name does not resolve — never to the
restart-like handler; the classification is total, so parsing never fails
the dispatch. -/
theorem C10_die_unparsable_exit_code_is_stopped (s : StoreState) (msg : Msg)
    (hty : msg.typ = "container") (hact : msg.action = "die")
    (hattr : trimStr msg.attrExitCode = "" ∨
      isDecimalInt (trimStr msg.attrExitCode) = false) :
    (classify s msg =
      if resolveName s msg == "" then Dispatch.ignored
      else Dispatch.stopD (resolveName s msg) msg.actorId none) ∧
    ∀ n i r ec sg, classify s msg ≠ Dispatch.restartLikeD n i r ec sg := by
  have hpec : parseExitCode msg.attrExitCode = none := by
    unfold parseExitCode
    rcases hattr with h | h
    · simp [h]
    · by_cases he : (trimStr msg.attrExitCode == "") = true
      · simp [he]
      · simp only [he, Bool.false_eq_true, if_neg]
        exact (goAtoi_eq_none_iff _).mpr h
  have hmain : classify s msg =
      if resolveName s msg == "" then Dispatch.ignored
      else Dispatch.stopD (resolveName s msg) msg.actorId none := by
    unfold classify
    rw [hty, hact]
    by_cases hname : (resolveName s msg == "") = true
    · simp [hname]
    · simp +decide [hname, isHealthcheckExecEvent, hasPre, hpec, hact]
  refine ⟨hmain, ?_⟩
  intro n i r ec sg
  rw [hmain]
  split <;> simp

/-- C10 witness: a die message with exitCode "abc" for a known container. -/
def fxDieMsg : Msg :=
  { typ := "container", action := "die", actorId := "bbb222", attrName := "imapsync"
  , attrOldName := "", attrSignal := "", attrExitCode := "abc", attrExecCommand := "" }

theorem C10_die_witness :
    fxDieMsg.typ = "container" ∧ fxDieMsg.action = "die" ∧
    (trimStr fxDieMsg.attrExitCode = "" ∨
      isDecimalInt (trimStr fxDieMsg.attrExitCode) = false) ∧
    ((classify fxRtStore fxDieMsg =
       if resolveName fxRtStore fxDieMsg == "" then Dispatch.ignored
       else Dispatch.stopD (resolveName fxRtStore fxDieMsg) fxDieMsg.actorId none) ∧
      ∀ n i r ec sg, classify fxRtStore fxDieMsg ≠ Dispatch.restartLikeD n i r ec sg) :=
  ⟨rfl, rfl, by decide,
    C10_die_unparsable_exit_code_is_stopped fxRtStore fxDieMsg rfl rfl (by decide)⟩

/-! ## Row-builder name lemmas -/

theorem stopRow_name (ins : InspectResponse) (name : String)
    (existing? : Option Container) (now : Int) :
    (stopRow ins name existing? now).name = name := by
  unfold stopRow
  cases existing? <;> simp [inspectToContainer, apply_ite Container.name]

theorem startRow_name (ins : InspectResponse) (name : String) (auto : Bool)
    (existing? : Option Container) (now : Int) :
    (startRow ins name auto existing? now).name = name := by
  unfold startRow
  cases existing? <;> cases auto <;>
    simp [inspectToContainer, apply_ite Container.name]

theorem createBase_name (ins : InspectResponse) (name : String)
    (existing? : Option Container) (now : Int) :
    (createBase ins name existing? now).name = name := by
  unfold createBase
  cases existing? <;> simp [inspectToContainer, apply_ite Container.name]

theorem recreateAdjust_name (ex c : Container) :
    (recreateAdjust ex c).name = c.name := by
  unfold recreateAdjust
  split <;> rfl

theorem healthRowInspect_name (ins : InspectResponse) (name : String)
    (existing? : Option Container) (now : Int) :
    (healthRowInspect ins name existing? now).name = name := by
  unfold healthRowInspect
  cases existing? <;> simp [inspectToContainer, apply_ite Container.name]

theorem healthRowNoInspect_name (ex : Container) (status : String)
    (prevStreak now : Int) :
    (healthRowNoInspect ex status prevStreak now).name = ex.name := by
  simp [healthRowNoInspect, apply_ite Container.name]

theorem restartCacheRow_name (c : Container) (inLoop : Bool) (streak : Int)
    (entered : Bool) (now : Int) :
    (restartCacheRow c inLoop streak entered now).name = c.name := by
  simp [restartCacheRow, apply_ite Container.name]

theorem restartInspectRow_name (ins : InspectResponse) (name : String)
    (inLoop : Bool) (streak : Int) (existing? : Option Container) (now : Int) :
    (restartInspectRow ins name inLoop streak existing? now).name = name := by
  unfold restartInspectRow
  cases existing? <;> simp [inspectToContainer, apply_ite Container.name]

theorem exitedRow_name (ex : Container) (now : Int) :
    (exitedRow ex now).name = ex.name := by
  simp [exitedRow, apply_ite Container.name]

/-! ## C8 — failure_no_restart alert condition -/

/-- The number of alerts of a given type on record. -/
def countAlertType (s : StoreState) (t : String) : Nat :=
  s.alerts.countP (fun a => a.type == t)

theorem countAlertType_emitEventM (s : StoreState) (e : Event) (t : String) :
    countAlertType (emitEventM s e) t = countAlertType s t := by
  unfold countAlertType
  rw [emitEventM_alerts]

theorem countAlertType_upsert (s : StoreState) (c : Container) (now : Int)
    (t : String) :
    countAlertType (upsertContainer s c now) t = countAlertType s t := rfl

theorem countAlertType_emitAlertRecordM (s : StoreState) (a : Alert)
    (t : String) :
    countAlertType (emitAlertRecordM s a) t =
      countAlertType s t +
        (match resolveFor s a.containerId a.container with
         | none => 0
         | some _ => if (a.type == t) = true then 1 else 0) := by
  unfold countAlertType
  rw [emitAlertRecordM_alerts]
  cases resolveFor s a.containerId a.container with
  | none => simp
  | some c => simp [List.countP_cons]

theorem countAlertType_emitAlertRecordM_ne (s : StoreState) (a : Alert)
    (t : String) (h : (a.type == t) = false) :
    countAlertType (emitAlertRecordM s a) t = countAlertType s t := by
  rw [countAlertType_emitAlertRecordM]
  cases resolveFor s a.containerId a.container <;> simp [h]

theorem countAlertType_emitAlertM_of_resolved (s : StoreState)
    (name id ty msg sev : String) (ec : Option Int) (now : Int) (t : String)
    (h : (getContainer s name).isSome = true) :
    countAlertType (emitAlertM s name id ty msg sev ec now) t =
      countAlertType s t + (if (ty == t) = true then 1 else 0) := by
  unfold emitAlertM
  rw [countAlertType_emitAlertRecordM]
  have := resolveFor_isSome s id name h
  cases hres : resolveFor s id name with
  | none => rw [hres] at this; simp at this
  | some c => rfl

theorem countAlertType_emitAlertM_ne (s : StoreState)
    (name id ty msg sev : String) (ec : Option Int) (now : Int) (t : String)
    (h : (ty == t) = false) :
    countAlertType (emitAlertM s name id ty msg sev ec now) t =
      countAlertType s t := by
  unfold emitAlertM
  exact countAlertType_emitAlertRecordM_ne s _ t h

/-- The explicit condition equivalent to
`shouldAlertNoRestartPolicyFailure`: the claim's condition (non-zero exit
code present, no auto-restart policy, reason not oom) plus a present host
config. -/
theorem shouldAlert_iff (reason : String) (exit : Option Int)
    (ins : InspectResponse) :
    shouldAlertNoRestartPolicyFailure reason exit ins = true ↔
      (ins.hostConfig ≠ none ∧ hasAutoRestartPolicy ins = false ∧
        ¬(reason = "oom") ∧ ∃ c, exit = some c ∧ c ≠ 0) := by
  unfold shouldAlertNoRestartPolicyFailure
  cases hhc : ins.hostConfig with
  | none => simp
  | some hc =>
    by_cases hauto : hasAutoRestartPolicy ins = true
    · simp [hauto]
    · simp only [Bool.not_eq_true] at hauto
      by_cases hoom : (reason == "oom") = true
      · simp only [beq_iff_eq] at hoom
        simp [hauto, hoom]
      · have hoom' : ¬(reason = "oom") := by simpa using hoom
        cases exit with
        | none => simp [hauto, hoom, hoom']
        | some c =>
          by_cases hc0 : (c == 0) = true
          · simp only [beq_iff_eq] at hc0
            simp [hauto, hoom, hoom', hc0]
          · have hc0' : ¬(c = 0) := by simpa using hc0
            simp [hauto, hoom, hoom', hc0, hc0']

theorem countAlertType_emitInfoM (s : StoreState)
    (name id eventType message oldImage newImage oldImageId newImageId reason :
      String) (ec : Option Int) (now : Int) (t : String) :
    countAlertType (emitInfoM s name id eventType message oldImage newImage
      oldImageId newImageId reason ec now) t = countAlertType s t := by
  unfold emitInfoM
  exact countAlertType_emitEventM s _ t

theorem getContainer_upsert_isSome (s : StoreState) (c : Container)
    (now : Int) (n : String) (h : c.name = n) :
    (getContainer (upsertContainer s c now) n).isSome = true := by
  subst h
  rw [getContainer_upsert_self]
  rfl

theorem countFail_emit_restartLoopAlert (s : StoreState) (name id : String)
    (k now : Int) :
    countAlertType (emitAlertRecordM s
      { defEvent with
        container := name,
        containerId := id,
        type := "restart_loop",
        severity := "red",
        message := "Restart loop detected",
        timestamp := now,
        detailsJSON := restartCountJSON k }) "failure_no_restart" =
      countAlertType s "failure_no_restart" :=
  countAlertType_emitAlertRecordM_ne _ _ _ rfl

theorem countFail_emit_oomAlert (s : StoreState) (name id : String)
    (exit : Option Int) (now : Int) :
    countAlertType (emitAlertM s name id "oom_killed" "Container killed by OOM"
      "red" exit now) "failure_no_restart" =
      countAlertType s "failure_no_restart" :=
  countAlertType_emitAlertM_ne _ _ _ _ _ _ _ _ _ rfl

theorem countAlertType_match_upsert (X : Option Container) (s1 : StoreState)
    (g : Container → Container) (now : Int) (t : String) :
    countAlertType (match X with
      | some c => upsertContainer s1 (g c) now
      | none => s1) t = countAlertType s1 t := by
  cases X <;> rfl

/-- C8 (amended): for STOPPED and RESTART_LIKE actions with a successful
inspect, the `failure_no_restart` (red) alert is recorded exactly when
`shouldAlertNoRestartPolicyFailure` holds, which is the claim's condition —
exit code present and non-zero, no auto-restart policy, reason not `oom` —
strengthened by the requirement that the inspect response carry a host
config: a nil host config suppresses the alert even when the claim's
condition holds. -/
theorem C8_failure_no_restart_iff (m : MonState) (name id : String)
    (exit : Option Int) (ins : InspectResponse) (sig : String) (now : Int) :
    (countAlertType (handleStop m name id exit (some ins) now).store
        "failure_no_restart" =
      countAlertType m.store "failure_no_restart" +
        (if shouldAlertNoRestartPolicyFailure "stop" exit ins = true then 1 else 0)) ∧
    (∀ reason : String,
      countAlertType (handleRestartLike m name id reason exit sig (some ins) now).store
          "failure_no_restart" =
        countAlertType m.store "failure_no_restart" +
          (if shouldAlertNoRestartPolicyFailure reason exit ins = true then 1 else 0)) ∧
    (∀ reason : String,
      shouldAlertNoRestartPolicyFailure reason exit ins = true ↔
        (ins.hostConfig ≠ none ∧ hasAutoRestartPolicy ins = false ∧
          ¬(reason = "oom") ∧ ∃ c, exit = some c ∧ c ≠ 0)) := by
  refine ⟨?_, ?_, fun reason => shouldAlert_iff reason exit ins⟩
  · unfold handleStop
    dsimp only
    by_cases hal : shouldAlertNoRestartPolicyFailure "stop" exit ins = true
    · rw [if_pos hal, if_pos hal,
        countAlertType_emitAlertM_of_resolved _ _ _ _ _ _ _ _ _
          (getContainer_upsert_isSome _ _ _ _ (stopRow_name _ _ _ _)),
        countAlertType_upsert, countAlertType_emitInfoM]
      rfl
    · rw [if_neg hal, if_neg hal, countAlertType_upsert, countAlertType_emitInfoM]
      omega
  · intro reason
    unfold handleRestartLike
    dsimp only
    by_cases hal : shouldAlertNoRestartPolicyFailure reason exit ins = true
    · rw [if_pos hal, if_pos hal,
        countAlertType_emitAlertM_of_resolved _ _ _ _ _ _ _ _ _
          (getContainer_upsert_isSome _ _ _ _ (restartInspectRow_name _ _ _ _ _ _)),
        countAlertType_upsert,
        apply_ite (fun st => countAlertType st "failure_no_restart"),
        countFail_emit_restartLoopAlert, ite_self,
        apply_ite (fun st => countAlertType st "failure_no_restart"),
        countFail_emit_oomAlert, ite_self,
        countAlertType_match_upsert,
        countAlertType_emitInfoM]
      rfl
    · rw [if_neg hal, if_neg hal, countAlertType_upsert,
        apply_ite (fun st => countAlertType st "failure_no_restart"),
        countFail_emit_restartLoopAlert, ite_self,
        apply_ite (fun st => countAlertType st "failure_no_restart"),
        countFail_emit_oomAlert, ite_self,
        countAlertType_match_upsert,
        countAlertType_emitInfoM]
      omega

/-- The inspect response with a nil `HostConfig` and a store holding the
stopped container. -/
def fxInsNoHC : InspectResponse :=
  { id := "bbb222", created := 5, imageName := "imapsync", imageTag := "latest", imageId := "img-imapsync", state := some { status := "exited", startedAt := 6, health := none }, hostConfig := none }

def fxTr0 : RestartTracker := newRestartTracker 300 3

/-- C8 (counterexample): a STOPPED action with a successful inspect whose
host config is nil, exit code 137 and reason `stop` — the claim's condition
holds (exit present and non-zero, no auto-restart policy, reason not oom),
yet no `failure_no_restart` alert is recorded. -/
theorem C8_counterexample_nil_hostconfig :
    hasAutoRestartPolicy fxInsNoHC = false ∧
    fxInsNoHC.hostConfig = none ∧
    countAlertType
      (handleStop ⟨fxRtStore, fxTr0⟩ "imapsync" "bbb222" (some 137)
        (some fxInsNoHC) 100).store "failure_no_restart" = 0 ∧
    countAlertType fxRtStore "failure_no_restart" = 0 := by
  decide

/-! ## C2 — alerts on container recreate -/

theorem createBase_imageId (ins : InspectResponse) (name : String)
    (existing? : Option Container) (now : Int) :
    (createBase ins name existing? now).imageId = ins.imageId := by
  unfold createBase inspectToContainer
  cases existing? <;> simp [apply_ite Container.imageId]

theorem createBase_imageTag (ins : InspectResponse) (name : String)
    (existing? : Option Container) (now : Int) :
    (createBase ins name existing? now).imageTag = ins.imageTag := by
  unfold createBase inspectToContainer
  cases existing? <;> simp [apply_ite Container.imageTag]

theorem recreateAdjust_imageId (ex c : Container) :
    (recreateAdjust ex c).imageId = c.imageId := by
  unfold recreateAdjust
  split <;> rfl

theorem recreateAdjust_imageTag (ex c : Container) :
    (recreateAdjust ex c).imageTag = c.imageTag := by
  unfold recreateAdjust
  split <;> rfl

theorem getContainer_isSome_emitEventM (s : StoreState) (e : Event)
    (n : String) (h : (getContainer s n).isSome = true) :
    (getContainer (emitEventM s e) n).isSome = true := by
  rcases getContainer_emitEventM s e n with ⟨f, hmap, _⟩
  rw [hmap]
  cases hg : getContainer s n with
  | none => rw [hg] at h; simp at h
  | some c => simp

/-- The event types on record after an `emitInfo` whose container
resolves: the informational event is prepended. -/
theorem emitInfoM_event_types_of_resolved (s : StoreState)
    (name id eventType message oldImage newImage oldImageId newImageId reason :
      String) (ec : Option Int) (now : Int)
    (h : (getContainer s name).isSome = true) :
    (emitInfoM s name id eventType message oldImage newImage oldImageId
        newImageId reason ec now).events.map (fun e => e.type) =
      eventType :: s.events.map (fun e => e.type) := by
  unfold emitInfoM emitEventM
  have hres := resolveFor_isSome s id name h
  cases hr : resolveFor s id name with
  | none => rw [hr] at hres; simp at hres
  | some c => rfl

theorem emitInfoM_alerts (s : StoreState)
    (name id eventType message oldImage newImage oldImageId newImageId reason :
      String) (ec : Option Int) (now : Int) :
    (emitInfoM s name id eventType message oldImage newImage oldImageId
        newImageId reason ec now).alerts = s.alerts := by
  unfold emitInfoM
  exact emitEventM_alerts s _

/-- The alert (type, severity) pairs on record after an `emitAlert` whose
container resolves: the alert is prepended. -/
theorem emitAlertM_alert_types_of_resolved (s : StoreState)
    (name id ty msg sev : String) (ec : Option Int) (now : Int)
    (h : (getContainer s name).isSome = true) :
    (emitAlertM s name id ty msg sev ec now).alerts.map
        (fun a => (a.type, a.severity)) =
      (ty, sev) :: s.alerts.map (fun a => (a.type, a.severity)) := by
  unfold emitAlertM emitAlertRecordM
  have hres := resolveFor_isSome s id name h
  cases hr : resolveFor s id name with
  | none => rw [hr] at hres; simp at hres
  | some c => rfl

theorem emitAlertM_events (s : StoreState) (name id ty msg sev : String)
    (ec : Option Int) (now : Int) :
    (emitAlertM s name id ty msg sev ec now).events = s.events := by
  unfold emitAlertM
  exact emitAlertRecordM_events s _

theorem emitAlertM_containers (s : StoreState) (name id ty msg sev : String)
    (ec : Option Int) (now : Int) :
    (emitAlertM s name id ty msg sev ec now).containers = s.containers := by
  unfold emitAlertM
  exact emitAlertRecordM_containers s _

theorem getContainer_emitAlertM (s : StoreState) (name id ty msg sev : String)
    (ec : Option Int) (now : Int) (n : String) :
    getContainer (emitAlertM s name id ty msg sev ec now) n = getContainer s n := by
  unfold getContainer
  rw [emitAlertM_containers]

theorem getContainer_isSome_emitInfoM (s : StoreState)
    (name id eventType message oldImage newImage oldImageId newImageId reason :
      String) (ec : Option Int) (now : Int) (n : String)
    (h : (getContainer s n).isSome = true) :
    (getContainer (emitInfoM s name id eventType message oldImage newImage
      oldImageId newImageId reason ec now) n).isSome = true := by
  unfold emitInfoM
  exact getContainer_isSome_emitEventM _ _ _ h

/-- The observable conclusion of the amended C2: on a recreate, the alert
log gains a `recreated` (blue) alert, preceded in insertion order by an
`image_changed` (blue) alert exactly when the image id or tag changed; the
event log gains the informational `created` event plus exactly one of
`image_changed`/`recreated`. -/
def C2Concl (m : MonState) (name id : String) (ins : InspectResponse)
    (now : Int) (ex : Container) : Prop :=
  let s' := handleCreate m name id (some ins) now
  let imageChanged := !(ex.imageId == ins.imageId) || !(ex.imageTag == ins.imageTag)
  (s'.store.alerts.map (fun a => (a.type, a.severity)) =
    (if imageChanged = true then
      [("recreated", "blue"), ("image_changed", "blue")]
     else [("recreated", "blue")]) ++
      m.store.alerts.map (fun a => (a.type, a.severity))) ∧
  (s'.store.events.map (fun e => e.type) =
    "created" :: (if imageChanged = true then "image_changed" else "recreated") ::
      m.store.events.map (fun e => e.type))

/-- C2 (amended): for every CREATED action on a known name whose engine id
changed (a recreate) with a successful inspect, the handler always emits
the blue `recreated` alert and additionally emits a blue `image_changed`
alert when `image_id` or `image_tag` changed — two blue alerts in that
case, never one — while the informational event is exactly one of
`image_changed`/`recreated`. -/
theorem C2_recreate_emits_both_blue_alerts (m : MonState) (name id : String)
    (ins : InspectResponse) (now : Int) (ex : Container)
    (hex : getContainer m.store name = some ex)
    (hrec : (ex.containerId == id) = false) :
    C2Concl m name id ins now ex := by
  have hSome : (getContainer m.store name).isSome = true := by rw [hex]; rfl
  unfold C2Concl handleCreate
  dsimp only
  rw [hex]
  dsimp only
  simp only [hrec, Bool.not_false]
  rw [if_pos trivial]
  have hcond :
      (!(ex.imageId == (recreateAdjust ex (createBase ins name (some ex) now)).imageId) ||
        !(ex.imageTag == (recreateAdjust ex (createBase ins name (some ex) now)).imageTag)) =
      (!(ex.imageId == ins.imageId) || !(ex.imageTag == ins.imageTag)) := by
    rw [recreateAdjust_imageId, recreateAdjust_imageTag, createBase_imageId,
      createBase_imageTag]
  rw [hcond]
  set B := recreateAdjust ex (createBase ins name (some ex) now) with hB
  have hBname : B.name = name := by
    rw [hB, recreateAdjust_name, createBase_name]
  by_cases himg : (!(ex.imageId == ins.imageId) || !(ex.imageTag == ins.imageTag)) = true
  · rw [if_pos himg, if_pos himg, if_pos himg]
    set E1 := emitInfoM m.store name id "image_changed"
      ("Image changed " ++ ex.image ++ " -> " ++ B.image) ex.image B.image
      ex.imageId B.imageId "recreate" none now with hE1
    set A1 := emitAlertM E1 name id "image_changed" "Container image updated"
      "blue" none now with hA1
    set A2 := emitAlertM A1 name id "recreated" "Container recreated" "blue"
      none now with hA2
    set U := upsertContainer A2 B now with hU
    have hgE1 : (getContainer E1 name).isSome = true := by
      rw [hE1]
      exact getContainer_isSome_emitInfoM _ _ _ _ _ _ _ _ _ _ _ _ _ hSome
    have hgA1 : (getContainer A1 name).isSome = true := by
      rw [hA1, getContainer_emitAlertM]
      exact hgE1
    have hgU : (getContainer U name).isSome = true := by
      rw [hU]
      exact getContainer_upsert_isSome _ _ _ _ hBname
    constructor
    · rw [emitInfoM_alerts, hU, upsert_alerts, hA2,
        emitAlertM_alert_types_of_resolved _ _ _ _ _ _ _ _ hgA1, hA1,
        emitAlertM_alert_types_of_resolved _ _ _ _ _ _ _ _ hgE1, hE1,
        emitInfoM_alerts]
      rfl
    · rw [emitInfoM_event_types_of_resolved _ _ _ _ _ _ _ _ _ _ _ _ hgU,
        hU, upsert_events, hA2, emitAlertM_events, hA1, emitAlertM_events, hE1,
        emitInfoM_event_types_of_resolved _ _ _ _ _ _ _ _ _ _ _ _ hSome]
  · rw [if_neg himg, if_neg himg, if_neg himg]
    set E1 := emitInfoM m.store name id "recreated" "Container recreated"
      ex.image B.image ex.imageId B.imageId "recreate" none now with hE1
    set A2 := emitAlertM E1 name id "recreated" "Container recreated" "blue"
      none now with hA2
    set U := upsertContainer A2 B now with hU
    have hgE1 : (getContainer E1 name).isSome = true := by
      rw [hE1]
      exact getContainer_isSome_emitInfoM _ _ _ _ _ _ _ _ _ _ _ _ _ hSome
    have hgU : (getContainer U name).isSome = true := by
      rw [hU]
      exact getContainer_upsert_isSome _ _ _ _ hBname
    constructor
    · rw [emitInfoM_alerts, hU, upsert_alerts, hA2,
        emitAlertM_alert_types_of_resolved _ _ _ _ _ _ _ _ hgE1, hE1,
        emitInfoM_alerts]
      rfl
    · rw [emitInfoM_event_types_of_resolved _ _ _ _ _ _ _ _ _ _ _ _ hgU,
        hU, upsert_events, hA2, emitAlertM_events, hE1,
        emitInfoM_event_types_of_resolved _ _ _ _ _ _ _ _ _ _ _ _ hSome]

/-- The concrete recreate: container `web` with image `v1`/`sha:A` and
engine id `aaa`, recreated as engine id `bbb` with image `v2`/`sha:B`. -/
def fxExWeb : Container :=
  { defContainer with id := 1, name := "web", containerId := "aaa", image := "img", imageTag := "v1", imageId := "sha:A", present := true, status := "running", registeredAt := 100, role := "service" }

def fxS0 : StoreState :=
  { emptyStore with containers := [fxExWeb], nextContainerId := 2 }

def fxInsB : InspectResponse :=
  { id := "bbb", created := 50, imageName := "img", imageTag := "v2", imageId := "sha:B", state := some { status := "created", startedAt := 0, health := none }, hostConfig := some { restartPolicyName := "always" } }

/-- C2 (counterexample): the claim demands exactly one blue alert per
recreate transition and never both; on this image-changing recreate the
handler records two blue alerts, `image_changed` and `recreated`. -/
theorem C2_counterexample_two_blue_alerts :
    getContainer fxS0 "web" = some fxExWeb ∧
    (fxExWeb.containerId == "bbb") = false ∧
    (!(fxExWeb.imageId == fxInsB.imageId) || !(fxExWeb.imageTag == fxInsB.imageTag)) = true ∧
    ((handleCreate ⟨fxS0, fxTr0⟩ "web" "bbb" (some fxInsB) (200 * nsPerSec)).store.alerts.map
      (fun a => (a.type, a.severity)) =
        [("recreated", "blue"), ("image_changed", "blue")]) := by
  decide

/-- C2 witness: the amended theorem applied at the concrete recreate. -/
theorem C2_recreate_witness :
    getContainer fxS0 "web" = some fxExWeb ∧
    (fxExWeb.containerId == "bbb") = false ∧
    C2Concl ⟨fxS0, fxTr0⟩ "web" "bbb" fxInsB (200 * nsPerSec) fxExWeb :=
  ⟨by decide, by decide,
    C2_recreate_emits_both_blue_alerts ⟨fxS0, fxTr0⟩ "web" "bbb" fxInsB
      (200 * nsPerSec) fxExWeb (by decide) (by decide)⟩

/-! ## C7 — persistence of restart_loop outside the heal scanner -/

theorem startRow_restartLoop_auto (ins : InspectResponse) (name : String)
    (ex : Container) (now : Int) :
    (startRow ins name true (some ex) now).restartLoop = ex.restartLoop := by
  unfold startRow inspectToContainer
  simp [apply_ite Container.restartLoop]

theorem startRow_restartStreak_auto (ins : InspectResponse) (name : String)
    (ex : Container) (now : Int) :
    (startRow ins name true (some ex) now).restartStreak = ex.restartStreak := by
  unfold startRow inspectToContainer
  simp [apply_ite Container.restartStreak]

theorem startRow_restartLoopSince_auto (ins : InspectResponse) (name : String)
    (ex : Container) (now : Int) :
    (startRow ins name true (some ex) now).restartLoopSince =
      ex.restartLoopSince := by
  unfold startRow inspectToContainer
  simp [apply_ite Container.restartLoopSince]

theorem getContainer_emitInfoM_map (s : StoreState)
    (name id eventType message oldImage newImage oldImageId newImageId reason :
      String) (ec : Option Int) (now : Int) (n : String) :
    ∃ f : Container → Container,
      getContainer (emitInfoM s name id eventType message oldImage newImage
        oldImageId newImageId reason ec now) n = (getContainer s n).map f ∧
      ∀ c : Container, coreEq (f c) c := by
  unfold emitInfoM
  exact getContainer_emitEventM _ _ _

/-- C7 (amended): STARTED with a successful inspect showing an auto-restart
policy preserves a persisted `restart_loop=true` (and the streak and
loop-since stamps).  The original claim fails for RENAME: renaming an
in-loop container to a fresh name clears `restart_loop` on the surviving
row, outside the heal scanner. -/
theorem C7_start_preserves_restart_loop (m : MonState) (name id : String)
    (ins : InspectResponse) (now : Int) (ex : Container)
    (hauto : hasAutoRestartPolicy ins = true)
    (hex : getContainer m.store name = some ex)
    (hloop : ex.restartLoop = true) :
    ∃ c', getContainer (handleStart m name id (some ins) now).store name = some c' ∧
      c'.restartLoop = true ∧ c'.restartStreak = ex.restartStreak ∧
      c'.restartLoopSince = ex.restartLoopSince := by
  unfold handleStart
  dsimp only
  rw [hauto, hex]
  rcases getContainer_emitInfoM_map
    (upsertContainer m.store (startRow ins name true (some ex) now) now)
    name id "started" "Container started" "" "" "" "" "start" none now name with
    ⟨f, hmap, hcore⟩
  rw [hmap]
  have hg : getContainer
      (upsertContainer m.store (startRow ins name true (some ex) now) now) name =
      some (upsertRow m.store (startRow ins name true (some ex) now) now) := by
    have := getContainer_upsert_self m.store
      (startRow ins name true (some ex) now) now
    rwa [startRow_name] at this
  rw [hg]
  refine ⟨f (upsertRow m.store (startRow ins name true (some ex) now) now),
    rfl, ?_, ?_, ?_⟩
  all_goals
    rcases hcore (upsertRow m.store (startRow ins name true (some ex) now) now) with
      ⟨h1, h2, h3, h4, h5, h6, h7, h8, h9, h10, h11⟩
  · rw [h9, upsertRow_restartLoop, startRow_restartLoop_auto, hloop]
  · rw [h10, upsertRow_restartStreak, startRow_restartStreak_auto]
  · rw [h11, upsertRow_restartLoopSince, startRow_restartLoopSince_auto]

/-- An in-loop auto-restarting container named `a`. -/
def fxLoopA : Container :=
  { defContainer with id := 1, name := "a", containerId := "ca", present := true, status := "running", registeredAt := 10, role := "service", restartLoop := true, restartStreak := 3, restartLoopSince := 7 }

def fxSLoopA : StoreState :=
  { emptyStore with containers := [fxLoopA], nextContainerId := 2 }

def fxInsCa : InspectResponse :=
  { id := "ca", created := 5, imageName := "img", imageTag := "v1", imageId := "sha:A", state := some { status := "running", startedAt := 6, health := none }, hostConfig := some { restartPolicyName := "always" } }

/-- C7 (counterexample): renaming the in-loop auto-restart container `a`
(surrogate id 1) to the fresh name `c` leaves the same surviving row with
`restart_loop = false` — a true→false transition performed by RENAME,
not by the heal scanner. -/
theorem C7_counterexample_rename_clears_loop :
    fxLoopA.restartLoop = true ∧
    hasAutoRestartPolicy fxInsCa = true ∧
    ((handleRename ⟨fxSLoopA, fxTr0⟩ "a" "c" "ca" (some fxInsCa) 100).store.containers.map
      (fun c => (c.name, c.id, c.restartLoop))) = [("c", 1, false)] := by
  decide

/-- C7 witness: STARTED on the in-loop container keeps the loop state. -/
theorem C7_start_witness :
    hasAutoRestartPolicy fxInsCa = true ∧
    getContainer fxSLoopA "a" = some fxLoopA ∧
    fxLoopA.restartLoop = true ∧
    (∃ c', getContainer
        (handleStart ⟨fxSLoopA, fxTr0⟩ "a" "ca" (some fxInsCa) 100).store "a" =
        some c' ∧
      c'.restartLoop = true ∧ c'.restartStreak = fxLoopA.restartStreak ∧
      c'.restartLoopSince = fxLoopA.restartLoopSince) :=
  ⟨by decide, by decide, by decide,
    C7_start_preserves_restart_loop ⟨fxSLoopA, fxTr0⟩ "a" "ca" fxInsCa 100
      fxLoopA (by decide) (by decide) (by decide)⟩

/-! ## C5 — the health invariant and the no-inspect fallback -/

/-- The claimed invariant: unhealthy status iff a non-zero unhealthy stamp. -/
def healthInv (c : Container) : Prop :=
  (lowerStr c.healthStatus == "unhealthy") = true ↔ c.unhealthySince ≠ 0

instance healthInvDecidable (c : Container) : Decidable (healthInv c) := by
  unfold healthInv
  infer_instance

theorem healthInv_coreEq (x y : Container) (h : coreEq x y)
    (hy : healthInv y) : healthInv x := by
  rcases h with ⟨-, -, -, -, -, h6, -, h8, -, -, -⟩
  unfold healthInv at hy ⊢
  rw [h6, h8]
  exact hy

theorem emitHealthAlerts_containers (s : StoreState)
    (status prevStatus : String) (prevStreak : Int) (name id : String)
    (now : Int) :
    (emitHealthAlerts s status prevStatus prevStreak name id now).containers =
      s.containers := by
  unfold emitHealthAlerts
  simp [apply_ite StoreState.containers, emitAlertM_containers]

theorem healthInv_step (i : Container) (now : Int) (hnow : now ≠ 0) :
    healthInv (if lowerStr i.healthStatus == "unhealthy" then
      (if i.unhealthySince = 0 then { i with unhealthySince := now } else i)
    else { i with unhealthySince := 0 }) := by
  by_cases h1 : (lowerStr i.healthStatus == "unhealthy") = true
  · rw [if_pos h1]
    by_cases h2 : i.unhealthySince = 0
    · rw [if_pos h2]
      simp [healthInv, h1, hnow]
    · rw [if_neg h2]
      simp [healthInv, h1, h2]
  · rw [if_neg h1]
    simp [healthInv, h1]

theorem healthInv_regIte (i : Container) (b : Prop) [Decidable b] (x : Int)
    (h : healthInv i) :
    healthInv (if b then { i with registeredAt := x } else i) := by
  by_cases hb : b
  · rw [if_pos hb]
    exact h
  · rw [if_neg hb]
    exact h

theorem healthInv_healthRowInspect (ins : InspectResponse) (name : String)
    (ex? : Option Container) (now : Int) (hnow : now ≠ 0) :
    healthInv (healthRowInspect ins name ex? now) := by
  unfold healthRowInspect
  cases ex? <;> exact healthInv_regIte _ _ _ (healthInv_step _ now hnow)

theorem healthInv_healthRowNoInspect (ex : Container) (st : String)
    (ps now : Int) (hnow : now ≠ 0)
    (hst : st = "healthy" ∨ st = "unhealthy") :
    healthInv (healthRowNoInspect ex st ps now) := by
  rcases hst with h | h <;> subst h
  · have hl : (lowerStr "healthy" == "unhealthy") = false := by decide
    simp [healthRowNoInspect, healthInv, hl]
  · have hl : (lowerStr "unhealthy" == "unhealthy") = true := by decide
    by_cases h0 : ex.unhealthySince = 0 <;>
      simp [healthRowNoInspect, healthInv, h0, hl, hnow]

/-- C5 (amended): `handleHealth` preserves the invariant
`health_status = unhealthy ⇔ unhealthy_since ≠ 0` whenever the inspect
succeeds, or the (trimmed, lowered) engine status is `healthy` or
`unhealthy`.  With no inspect and any other status (e.g. `starting`) the
fallback write keeps the stale non-zero `unhealthy_since` while replacing
the status, breaking the biconditional. -/
theorem C5_health_inv_preserved (m : MonState) (name id status0 : String)
    (ins? : Option InspectResponse) (now : Int)
    (hnow : now ≠ 0)
    (hinv : ∀ c ∈ m.store.containers, healthInv c)
    (hcase : ins?.isSome = true ∨ trimStr (lowerStr status0) = "healthy" ∨
      trimStr (lowerStr status0) = "unhealthy") :
    ∀ c ∈ (handleHealth m name id status0 ins? now).store.containers,
      healthInv c := by
  intro c hc
  cases hins : ins? with
  | some ins =>
    simp only [handleHealth, hins] at hc
    rw [emitHealthAlerts_containers] at hc
    rcases mem_upsert _ _ _ c hc with hEq | hOld
    · subst hEq
      have h := healthInv_healthRowInspect ins name
        (getContainer m.store name) now hnow
      unfold healthInv at h ⊢
      rw [upsertRow_healthStatus, upsertRow_unhealthySince]
      exact h
    · exact hinv c hOld
  | none =>
    cases hex : getContainer m.store name with
    | some ex =>
      simp only [handleHealth, hins, hex] at hc
      rw [emitHealthAlerts_containers] at hc
      rcases mem_upsert _ _ _ c hc with hEq | hOld
      · subst hEq
        have hst : trimStr (lowerStr status0) = "healthy" ∨
            trimStr (lowerStr status0) = "unhealthy" := by
          rcases hcase with hs | hs | hs
          · rw [hins] at hs
            exact absurd hs (by decide)
          · exact Or.inl hs
          · exact Or.inr hs
        have h := healthInv_healthRowNoInspect ex (trimStr (lowerStr status0))
          ex.healthFailingStreak now hnow hst
        unfold healthInv at h ⊢
        rw [upsertRow_healthStatus, upsertRow_unhealthySince]
        exact h
      · exact hinv c hOld
    | none =>
      simp only [handleHealth, hins, hex] at hc
      rw [emitHealthAlerts_containers] at hc
      exact hinv c hc

/-- An inspect for a container `u` with no restart policy and no health
probe. -/
def fxInsU : InspectResponse :=
  { id := "cu", created := 5, imageName := "img", imageTag := "v1", imageId := "sha:U", state := some { status := "running", startedAt := 6, health := none }, hostConfig := some { restartPolicyName := "" } }

def fxC5a : MonState := handleCreate ⟨emptyStore, fxTr0⟩ "u" "cu" (some fxInsU) 10

def fxC5b : MonState := handleHealth fxC5a "u" "cu" "unhealthy" none 20

def fxC5c : MonState := handleHealth fxC5b "u" "cu" "starting" none 30

/-- C5 (counterexample): create `u`, mark it unhealthy without an inspect,
then process a `starting` health event without an inspect.  The row keeps
`unhealthy_since = 20` while `health_status` becomes `starting`, so the
claimed biconditional fails on a reducer-reachable state. -/
theorem C5_counterexample_starting_keeps_since :
    ((getContainer fxC5c.store "u").map
      (fun c => (c.healthStatus, c.unhealthySince))) = some ("starting", 20) ∧
    ¬ (∀ c ∈ fxC5c.store.containers, healthInv c) := by
  constructor
  · decide
  · intro h
    have := h ((getContainer fxC5c.store "u").getD defContainer) (by decide)
    revert this
    decide

/-- C5 witness: the unhealthy no-inspect step itself preserves the
invariant. -/
theorem C5_health_witness :
    (20 : Int) ≠ 0 ∧
    (∀ c ∈ fxC5a.store.containers, healthInv c) ∧
    (∀ c ∈ (handleHealth fxC5a "u" "cu" "unhealthy" none 20).store.containers,
      healthInv c) :=
  ⟨by decide, by decide,
    C5_health_inv_preserved fxC5a "u" "cu" "unhealthy" none 20 (by decide)
      (by decide) (Or.inr (Or.inr (by decide)))⟩

/-! ## C4 — the restart-loop invariant -/

/-- The surviving half of the claimed row invariant: an in-loop row has a
non-zero loop-since stamp. -/
def rowLoopInv (c : Container) : Prop :=
  c.restartLoop = true → c.restartLoopSince ≠ 0

instance rowLoopInvDecidable (c : Container) : Decidable (rowLoopInv c) := by
  unfold rowLoopInv
  infer_instance

/-- The store-level invariant over the cached/persisted container rows. -/
def sinceInv (s : StoreState) : Prop :=
  ∀ c ∈ s.containers, rowLoopInv c

instance sinceInvDecidable (s : StoreState) : Decidable (sinceInv s) := by
  unfold sinceInv
  infer_instance

theorem rowLoopInv_coreEq (x y : Container) (h : coreEq x y)
    (hy : rowLoopInv y) : rowLoopInv x := by
  rcases h with ⟨-, -, -, -, -, -, -, -, h9, -, h11⟩
  unfold rowLoopInv at hy ⊢
  rw [h9, h11]
  exact hy

theorem getContainer_mem (s : StoreState) (n : String) (c : Container)
    (h : getContainer s n = some c) : c ∈ s.containers := by
  unfold getContainer at h
  exact List.mem_of_find?_eq_some h

theorem sinceInv_upsert (s : StoreState) (c : Container) (now : Int)
    (hs : sinceInv s) (hc : rowLoopInv c) :
    sinceInv (upsertContainer s c now) := by
  intro x hx
  rcases mem_upsert s c now x hx with hEq | hOld
  · subst hEq
    unfold rowLoopInv at hc ⊢
    rw [upsertRow_restartLoop, upsertRow_restartLoopSince]
    exact hc
  · exact hs x hOld

theorem sinceInv_emitEventM (s : StoreState) (e : Event) (hs : sinceInv s) :
    sinceInv (emitEventM s e) := by
  rcases emitEventM_containers_map s e with ⟨f, hmap, hcore⟩
  intro x hx
  rw [hmap] at hx
  rcases List.mem_map.mp hx with ⟨y, hy, hfy⟩
  subst hfy
  exact rowLoopInv_coreEq _ _ (hcore y) (hs y hy)

theorem sinceInv_emitInfoM (s : StoreState) (name id eventType message oldImage
    newImage oldImageId newImageId reason : String) (exitCode : Option Int)
    (now : Int) (hs : sinceInv s) :
    sinceInv (emitInfoM s name id eventType message oldImage newImage
      oldImageId newImageId reason exitCode now) := by
  unfold emitInfoM
  exact sinceInv_emitEventM _ _ hs

theorem sinceInv_emitAlertRecordM (s : StoreState) (a : Alert)
    (hs : sinceInv s) : sinceInv (emitAlertRecordM s a) := by
  intro x hx
  rw [emitAlertRecordM_containers] at hx
  exact hs x hx

theorem sinceInv_emitAlertM (s : StoreState) (name id alertType message
    severity : String) (exitCode : Option Int) (now : Int) (hs : sinceInv s) :
    sinceInv (emitAlertM s name id alertType message severity exitCode now) := by
  unfold emitAlertM
  exact sinceInv_emitAlertRecordM _ _ hs

theorem sinceInv_emitHealthAlerts (s : StoreState) (status prevStatus : String)
    (prevStreak : Int) (name id : String) (now : Int) (hs : sinceInv s) :
    sinceInv (emitHealthAlerts s status prevStatus prevStreak name id now) := by
  intro x hx
  rw [emitHealthAlerts_containers] at hx
  exact hs x hx

theorem sinceInv_setContainerPresent (s : StoreState) (name : String)
    (p : Bool) (now : Int) (hs : sinceInv s) :
    sinceInv (setContainerPresent s name p now) := by
  rcases setContainerPresent_containers_map s name p now with ⟨f, hmap, hf⟩
  intro x hx
  rw [hmap] at hx
  rcases List.mem_map.mp hx with ⟨y, hy, hfy⟩
  subst hfy
  rcases hf y with ⟨-, h2, h3, -, -⟩
  have hy' := hs y hy
  unfold rowLoopInv at hy' ⊢
  rw [h2, h3]
  exact hy'

theorem createBase_restartLoop (ins : InspectResponse) (name : String)
    (existing? : Option Container) (now : Int) :
    (createBase ins name existing? now).restartLoop = false := by
  unfold createBase
  cases existing? <;>
    simp [inspectToContainer, defContainer, apply_ite Container.restartLoop]

theorem rowLoopInv_createBase (ins : InspectResponse) (name : String)
    (existing? : Option Container) (now : Int) :
    rowLoopInv (createBase ins name existing? now) := by
  unfold rowLoopInv
  rw [createBase_restartLoop]
  intro h
  exact Bool.noConfusion h

theorem rowLoopInv_recreateAdjust (ex c : Container) (hex : rowLoopInv ex) :
    rowLoopInv (recreateAdjust ex c) := by
  unfold recreateAdjust
  by_cases h : ex.restartLoop = true
  · rw [if_pos h]
    intro _
    exact hex h
  · rw [if_neg h]
    intro hh
    exact Bool.noConfusion hh

theorem startRow_restartLoop_false (ins : InspectResponse) (name : String)
    (existing? : Option Container) (now : Int) :
    (startRow ins name false existing? now).restartLoop = false := by
  unfold startRow
  cases existing? <;>
    simp [inspectToContainer, defContainer, apply_ite Container.restartLoop]

theorem startRow_restartLoop_none (ins : InspectResponse) (name : String)
    (auto : Bool) (now : Int) :
    (startRow ins name auto none now).restartLoop = false := by
  unfold startRow
  cases auto <;>
    simp [inspectToContainer, defContainer, apply_ite Container.restartLoop]

theorem rowLoopInv_startRow (ins : InspectResponse) (name : String)
    (auto : Bool) (existing? : Option Container) (now : Int)
    (hex : ∀ ex, existing? = some ex → rowLoopInv ex) :
    rowLoopInv (startRow ins name auto existing? now) := by
  cases existing? with
  | none =>
    unfold rowLoopInv
    rw [startRow_restartLoop_none]
    intro h
    exact Bool.noConfusion h
  | some ex =>
    cases auto with
    | false =>
      unfold rowLoopInv
      rw [startRow_restartLoop_false]
      intro h
      exact Bool.noConfusion h
    | true =>
      unfold rowLoopInv
      rw [startRow_restartLoop_auto, startRow_restartLoopSince_auto]
      exact hex ex rfl

theorem stopRow_restartLoop_some (ins : InspectResponse) (name : String)
    (ex : Container) (now : Int) :
    (stopRow ins name (some ex) now).restartLoop = ex.restartLoop := by
  unfold stopRow
  simp [inspectToContainer, apply_ite Container.restartLoop]

theorem stopRow_restartLoopSince_some (ins : InspectResponse) (name : String)
    (ex : Container) (now : Int) :
    (stopRow ins name (some ex) now).restartLoopSince = ex.restartLoopSince := by
  unfold stopRow
  simp [inspectToContainer, apply_ite Container.restartLoopSince]

theorem stopRow_restartLoop_none (ins : InspectResponse) (name : String)
    (now : Int) :
    (stopRow ins name none now).restartLoop = false := by
  unfold stopRow
  simp [inspectToContainer, defContainer, apply_ite Container.restartLoop]

theorem rowLoopInv_stopRow (ins : InspectResponse) (name : String)
    (existing? : Option Container) (now : Int)
    (hex : ∀ ex, existing? = some ex → rowLoopInv ex) :
    rowLoopInv (stopRow ins name existing? now) := by
  cases existing? with
  | none =>
    unfold rowLoopInv
    rw [stopRow_restartLoop_none]
    intro h
    exact Bool.noConfusion h
  | some ex =>
    unfold rowLoopInv
    rw [stopRow_restartLoop_some, stopRow_restartLoopSince_some]
    exact hex ex rfl

theorem exitedRow_restartLoop (ex : Container) (now : Int) :
    (exitedRow ex now).restartLoop = ex.restartLoop := by
  unfold exitedRow
  simp [apply_ite Container.restartLoop]

theorem exitedRow_restartLoopSince (ex : Container) (now : Int) :
    (exitedRow ex now).restartLoopSince = ex.restartLoopSince := by
  unfold exitedRow
  simp [apply_ite Container.restartLoopSince]

theorem sinceInv_upsert_exited (s : StoreState) (name : String)
    (ex : Container) (now : Int) (hs : sinceInv s)
    (hex : getContainer s name = some ex) :
    sinceInv (upsertContainer s (exitedRow ex now) now) := by
  refine sinceInv_upsert _ _ _ hs ?_
  unfold rowLoopInv
  rw [exitedRow_restartLoop, exitedRow_restartLoopSince]
  exact hs ex (getContainer_mem _ _ _ hex)

theorem rowLoopInv_restartCacheRow (c : Container) (inLoop : Bool)
    (streak : Int) (entered : Bool) (now : Int) (hnow : now ≠ 0) :
    rowLoopInv (restartCacheRow c inLoop streak entered now) := by
  unfold rowLoopInv restartCacheRow
  cases inLoop with
  | false =>
    intro h
    revert h
    simp [apply_ite Container.restartLoop]
  | true =>
    intro _
    by_cases h2 : c.restartLoopSince = 0 <;>
      simp [apply_ite Container.restartLoopSince, h2, hnow]

theorem rowLoopInv_restartInspectRow (ins : InspectResponse) (name : String)
    (inLoop : Bool) (streak : Int) (existing? : Option Container) (now : Int)
    (hnow : now ≠ 0) :
    rowLoopInv (restartInspectRow ins name inLoop streak existing? now) := by
  unfold rowLoopInv restartInspectRow
  cases inLoop with
  | false =>
    intro h
    revert h
    cases existing? <;>
      simp [inspectToContainer, defContainer, apply_ite Container.restartLoop]
  | true =>
    intro _
    cases existing? with
    | none =>
      simp [inspectToContainer, defContainer,
        apply_ite Container.restartLoopSince, hnow]
    | some ex =>
      by_cases h2 : ex.restartLoopSince = 0 <;>
        simp [inspectToContainer, apply_ite Container.restartLoopSince, h2, hnow]

theorem healthRowInspect_restartLoop_some (ins : InspectResponse)
    (name : String) (ex : Container) (now : Int) :
    (healthRowInspect ins name (some ex) now).restartLoop = ex.restartLoop := by
  unfold healthRowInspect
  simp [inspectToContainer, apply_ite Container.restartLoop]

theorem healthRowInspect_restartLoopSince_some (ins : InspectResponse)
    (name : String) (ex : Container) (now : Int) :
    (healthRowInspect ins name (some ex) now).restartLoopSince =
      ex.restartLoopSince := by
  unfold healthRowInspect
  simp [inspectToContainer, apply_ite Container.restartLoopSince]

theorem healthRowInspect_restartLoop_none (ins : InspectResponse)
    (name : String) (now : Int) :
    (healthRowInspect ins name none now).restartLoop = false := by
  unfold healthRowInspect
  simp [inspectToContainer, defContainer, apply_ite Container.restartLoop]

theorem rowLoopInv_healthRowInspect (ins : InspectResponse) (name : String)
    (existing? : Option Container) (now : Int)
    (hex : ∀ ex, existing? = some ex → rowLoopInv ex) :
    rowLoopInv (healthRowInspect ins name existing? now) := by
  cases existing? with
  | none =>
    unfold rowLoopInv
    rw [healthRowInspect_restartLoop_none]
    intro h
    exact Bool.noConfusion h
  | some ex =>
    unfold rowLoopInv
    rw [healthRowInspect_restartLoop_some, healthRowInspect_restartLoopSince_some]
    exact hex ex rfl

theorem healthRowNoInspect_restartLoop (ex : Container) (st : String)
    (ps now : Int) :
    (healthRowNoInspect ex st ps now).restartLoop = ex.restartLoop := by
  unfold healthRowNoInspect
  simp [apply_ite Container.restartLoop]

theorem healthRowNoInspect_restartLoopSince (ex : Container) (st : String)
    (ps now : Int) :
    (healthRowNoInspect ex st ps now).restartLoopSince =
      ex.restartLoopSince := by
  unfold healthRowNoInspect
  simp [apply_ite Container.restartLoopSince]

theorem sinceInv_handleCreate (m : MonState) (name id : String)
    (ins? : Option InspectResponse) (now : Int) (hs : sinceInv m.store) :
    sinceInv (handleCreate m name id ins? now).store := by
  cases ins? with
  | none => exact hs
  | some ins =>
    simp only [handleCreate]
    cases hex : getContainer m.store name with
    | none =>
      simp only [hex]
      apply sinceInv_emitInfoM
      exact sinceInv_upsert _ _ _ hs (rowLoopInv_createBase _ _ _ _)
    | some ex =>
      simp only [hex]
      split
      · apply sinceInv_emitInfoM
        apply sinceInv_upsert
        · apply sinceInv_emitAlertM
          split
          · apply sinceInv_emitAlertM
            apply sinceInv_emitInfoM
            exact hs
          · apply sinceInv_emitInfoM
            exact hs
        · exact rowLoopInv_recreateAdjust ex _ (hs ex (getContainer_mem _ _ _ hex))
      · apply sinceInv_emitInfoM
        exact sinceInv_upsert _ _ _ hs (rowLoopInv_createBase _ _ _ _)

theorem sinceInv_handleStart (m : MonState) (name id : String)
    (ins? : Option InspectResponse) (now : Int) (hs : sinceInv m.store) :
    sinceInv (handleStart m name id ins? now).store := by
  cases ins? with
  | none => exact hs
  | some ins =>
    simp only [handleStart]
    apply sinceInv_emitInfoM
    apply sinceInv_upsert _ _ _ hs
    apply rowLoopInv_startRow
    intro ex hex
    exact hs ex (getContainer_mem _ _ _ hex)

theorem sinceInv_handleStop (m : MonState) (name id : String)
    (exitCode : Option Int) (ins? : Option InspectResponse) (now : Int)
    (hs : sinceInv m.store) :
    sinceInv (handleStop m name id exitCode ins? now).store := by
  have h0 : sinceInv (emitInfoM m.store name id "stopped" "Container stopped"
      "" "" "" "" "stop" exitCode now) :=
    sinceInv_emitInfoM _ _ _ _ _ _ _ _ _ _ _ _ hs
  cases ins? with
  | some ins =>
    simp only [handleStop]
    split
    · apply sinceInv_emitAlertM
      apply sinceInv_upsert _ _ _ h0
      apply rowLoopInv_stopRow
      intro ex hex
      exact h0 ex (getContainer_mem _ _ _ hex)
    · apply sinceInv_upsert _ _ _ h0
      apply rowLoopInv_stopRow
      intro ex hex
      exact h0 ex (getContainer_mem _ _ _ hex)
  | none =>
    simp only [handleStop]
    cases hex : getContainer (emitInfoM m.store name id "stopped"
        "Container stopped" "" "" "" "" "stop" exitCode now) name with
    | none =>
      simp only [hex]
      exact h0
    | some ex =>
      simp only [hex]
      exact sinceInv_upsert_exited _ _ _ _ h0 hex

theorem sinceInv_handleSignal (m : MonState) (name id sig : String)
    (now : Int) (hs : sinceInv m.store) :
    sinceInv (handleSignal m name id sig now).store := by
  simp only [handleSignal]
  apply sinceInv_emitInfoM
  exact hs

theorem sinceInv_handleHealth (m : MonState) (name id status0 : String)
    (ins? : Option InspectResponse) (now : Int) (hs : sinceInv m.store) :
    sinceInv (handleHealth m name id status0 ins? now).store := by
  cases ins? with
  | some ins =>
    simp only [handleHealth]
    apply sinceInv_emitHealthAlerts
    apply sinceInv_upsert _ _ _ hs
    apply rowLoopInv_healthRowInspect
    intro ex hex
    exact hs ex (getContainer_mem _ _ _ hex)
  | none =>
    simp only [handleHealth]
    cases hex : getContainer m.store name with
    | some ex =>
      simp only [hex]
      apply sinceInv_emitHealthAlerts
      apply sinceInv_upsert _ _ _ hs
      have hy := hs ex (getContainer_mem _ _ _ hex)
      unfold rowLoopInv at hy ⊢
      rw [healthRowNoInspect_restartLoop, healthRowNoInspect_restartLoopSince]
      exact hy
    | none =>
      simp only [hex]
      apply sinceInv_emitHealthAlerts
      exact hs

theorem sinceInv_iteEmitAlert (p : Prop) [Decidable p] (s : StoreState)
    (name id ty msg sev : String) (ec : Option Int) (now : Int)
    (hs : sinceInv s) :
    sinceInv (if p then emitAlertM s name id ty msg sev ec now else s) := by
  split
  · exact sinceInv_emitAlertM _ _ _ _ _ _ _ _ hs
  · exact hs

theorem sinceInv_iteEmitAlertRecord (p : Prop) [Decidable p] (s : StoreState)
    (a : Alert) (hs : sinceInv s) :
    sinceInv (if p then emitAlertRecordM s a else s) := by
  split
  · exact sinceInv_emitAlertRecordM _ _ hs
  · exact hs

theorem sinceInv_matchCache (s : StoreState) (name : String) (b e : Bool)
    (k now : Int) (hnow : now ≠ 0) (hs : sinceInv s) :
    sinceInv (match getContainer s name with
      | some c => upsertContainer s (restartCacheRow c b k e now) now
      | none => s) := by
  cases hc : getContainer s name with
  | some c =>
    simp only [hc]
    exact sinceInv_upsert _ _ _ hs (rowLoopInv_restartCacheRow _ _ _ _ _ hnow)
  | none =>
    simp only [hc]
    exact hs

theorem sinceInv_matchExited (s : StoreState) (tr : RestartTracker)
    (name : String) (now : Int) (hs : sinceInv s) :
    sinceInv (MonState.store (match getContainer s name with
      | some ex => ⟨upsertContainer s (exitedRow ex now) now, tr⟩
      | none => ⟨s, tr⟩)) := by
  cases hc : getContainer s name with
  | some ex =>
    simp only [hc]
    exact sinceInv_upsert_exited _ _ _ _ hs hc
  | none =>
    simp only [hc]
    exact hs

theorem sinceInv_handleRestartLike (m : MonState) (name id reason : String)
    (exitCode : Option Int) (signal : String)
    (ins? : Option InspectResponse) (now : Int) (hnow : now ≠ 0)
    (hs : sinceInv m.store) :
    sinceInv (handleRestartLike m name id reason exitCode signal ins? now).store := by
  cases ins? with
  | some ins =>
    simp only [handleRestartLike]
    apply sinceInv_iteEmitAlert
    refine sinceInv_upsert _ _ _ ?_ (rowLoopInv_restartInspectRow _ _ _ _ _ _ hnow)
    apply sinceInv_iteEmitAlertRecord
    apply sinceInv_iteEmitAlert
    apply sinceInv_matchCache _ _ _ _ _ _ hnow
    exact sinceInv_emitInfoM _ _ _ _ _ _ _ _ _ _ _ _ hs
  | none =>
    simp only [handleRestartLike]
    apply sinceInv_matchExited
    apply sinceInv_iteEmitAlertRecord
    apply sinceInv_iteEmitAlert
    apply sinceInv_matchCache _ _ _ _ _ _ hnow
    exact sinceInv_emitInfoM _ _ _ _ _ _ _ _ _ _ _ _ hs

theorem sinceInv_checkHealsStep (window now : Int) (m : MonState)
    (c : Container) (hs : sinceInv m.store) :
    sinceInv (checkHealsStep window now m c).store := by
  simp only [checkHealsStep]
  split
  · exact hs
  split
  · exact hs
  repeat
    first
    | exact hs
    | (refine sinceInv_emitAlertRecordM _ _ (sinceInv_upsert _ _ _ hs ?_)
       intro h
       exact Bool.noConfusion h)
    | split

theorem sinceInv_checkHeals (window now : Int) (m : MonState)
    (hs : sinceInv m.store) : sinceInv (checkHeals window now m).store := by
  unfold checkHeals
  generalize listContainers m.store = l
  induction l generalizing m with
  | nil => exact hs
  | cons c l ih =>
    rw [List.foldl_cons]
    exact ih _ (sinceInv_checkHealsStep window now m c hs)

/-- C4 (amended): away from RENAME, every reducer operation preserves the
invariant `restart_loop = true -> restart_loop_since /= 0` over all cached
rows (for a non-zero wall clock).  The claimed stronger invariant fails:
`restart_streak >= threshold` is violated by a reachable state (a die
burst, a duplicate CREATED for the same engine id, and a die after the
window leave `restart_loop = true` with `restart_streak = 1 < 3`), and
RENAME can produce `restart_loop = true` with `restart_loop_since = 0`
(collision) or clear `restart_loop` without zeroing the stamp. -/
theorem C4_loop_since_invariant_preserved (m : MonState) (op : Op) (now : Int)
    (hnow : now ≠ 0) (hren : op.isRen = false) (hs : sinceInv m.store) :
    sinceInv ((applyOp m op now).store) := by
  cases op with
  | createdOp name id ins => exact sinceInv_handleCreate m name id ins now hs
  | startedOp name id ins => exact sinceInv_handleStart m name id ins now hs
  | stoppedOp name id exit ins =>
    exact sinceInv_handleStop m name id exit ins now hs
  | restartOp name id reason exit sig ins =>
    exact sinceInv_handleRestartLike m name id reason exit sig ins now hnow hs
  | signalOp name id sig => exact sinceInv_handleSignal m name id sig now hs
  | healthOp name id status ins =>
    exact sinceInv_handleHealth m name id status ins now hs
  | renameOp oldName newName actorId ins => exact Bool.noConfusion hren
  | absentOp name => exact sinceInv_setContainerPresent _ _ _ _ hs
  | healOp => exact sinceInv_checkHeals _ _ _ hs

/-- An auto-restarting inspect for engine id `cr`. -/
def fxInsR : InspectResponse :=
  { id := "cr", created := 1, imageName := "img", imageTag := "v1", imageId := "sha:R", state := some { status := "running", startedAt := 2, health := none }, hostConfig := some { restartPolicyName := "always" } }

def fxInsB2 : InspectResponse :=
  { id := "cb", created := 1, imageName := "img", imageTag := "v1", imageId := "sha:B", state := some { status := "running", startedAt := 2, health := none }, hostConfig := some { restartPolicyName := "always" } }

/-- Seconds to the reducer's nanosecond clock. -/
def secNs (n : Int) : Int := n * nsPerSec

/-- Trace 1: die at 10s, 20s, 30s (entering the loop at threshold 3), a
duplicate CREATED for the same engine id at 40s, one more die at 400s
(outside the 300s window). -/
def fxC4T : MonState :=
  handleRestartLike
    (handleCreate
      (handleRestartLike
        (handleRestartLike
          (handleRestartLike
            (handleCreate ⟨emptyStore, newRestartTracker 300 3⟩
              "r" "cr" (some fxInsR) (secNs 5))
            "r" "cr" "die" (some 1) "" (some fxInsR) (secNs 10))
          "r" "cr" "die" (some 1) "" (some fxInsR) (secNs 20))
        "r" "cr" "die" (some 1) "" (some fxInsR) (secNs 30))
      "r" "cr" (some fxInsR) (secNs 40))
    "r" "cr" "die" (some 1) "" (some fxInsR) (secNs 400)

/-- Trace 2: create `a` and `b`, drive `b` into a restart loop with three
dies, then rename `a` onto the occupied name `b` (a collision rename). -/
def fxC4U : MonState :=
  handleRename
    (handleRestartLike
      (handleRestartLike
        (handleRestartLike
          (handleCreate
            (handleCreate ⟨emptyStore, newRestartTracker 300 3⟩
              "a" "ca" (some fxInsCa) (secNs 5))
            "b" "cb" (some fxInsB2) (secNs 6))
          "b" "cb" "die" (some 1) "" (some fxInsB2) (secNs 10))
        "b" "cb" "die" (some 1) "" (some fxInsB2) (secNs 20))
      "b" "cb" "die" (some 1) "" (some fxInsB2) (secNs 30))
    "a" "b" "ca" (some fxInsCa) (secNs 50)

/-- C4 (counterexample): two reachable violations of the claimed invariant.
Trace 1 ends with `r` flagged `restart_loop = true` but
`restart_streak = 1`, below the threshold 3.  Trace 2 ends with the
surviving `b` row flagged `restart_loop = true` but
`restart_loop_since = 0`. -/
theorem C4_counterexample_streak_and_since :
    (fxC4T.tracker.threshold = 3 ∧
      (getContainer fxC4T.store "r").map
        (fun c => (c.restartLoop, c.restartStreak)) = some (true, 1)) ∧
    (getContainer fxC4U.store "b").map
      (fun c => (c.restartLoop, c.restartLoopSince)) = some (true, 0) := by
  decide

/-- C4 witness: a STARTED operation on a store satisfying the invariant. -/
theorem C4_since_invariant_witness :
    (100 : Int) ≠ 0 ∧
    Op.isRen (Op.startedOp "a" "ca" (some fxInsCa)) = false ∧
    sinceInv fxSLoopA ∧
    sinceInv ((applyOp ⟨fxSLoopA, fxTr0⟩
      (Op.startedOp "a" "ca" (some fxInsCa)) 100).store) :=
  ⟨by decide, by decide, by decide,
    C4_loop_since_invariant_preserved ⟨fxSLoopA, fxTr0⟩
      (Op.startedOp "a" "ca" (some fxInsCa)) 100 (by decide) (by decide)
      (by decide)⟩

/-! ## C6 — the heal scanner -/

/-- Row identity up to the fields the heal fold keeps fixed: the name, the
surrogate id and the engine id. -/
def keyEq (x y : Container) : Prop :=
  x.name = y.name ∧ x.id = y.id ∧ x.containerId = y.containerId

theorem keyEq_symm (x y : Container) (h : keyEq x y) : keyEq y x :=
  ⟨h.1.symm, h.2.1.symm, h.2.2.symm⟩

theorem keyEq_all_refl (l : List Container) : List.Forall₂ keyEq l l := by
  induction l with
  | nil => exact .nil
  | cons x t ih => exact .cons ⟨rfl, rfl, rfl⟩ ih

theorem find?_keyEq_some (p q : Container → Bool)
    (hpq : ∀ x y, keyEq x y → p x = q y) (l l0 : List Container)
    (h : List.Forall₂ keyEq l l0) :
    ∀ r, l.find? p = some r → ∃ r0, l0.find? q = some r0 ∧ keyEq r r0 := by
  induction h with
  | nil =>
    intro r hr
    simp at hr
  | cons hxy hrest ih =>
    rename_i x y l' l0'
    intro r hr
    by_cases hx : p x = true
    · rw [findPos _ _ _ hx] at hr
      cases hr
      exact ⟨y, findPos _ _ _ ((hpq x y hxy).symm.trans hx), hxy⟩
    · rw [findNeg _ _ _ (Bool.eq_false_iff.mpr hx)] at hr
      rcases ih r hr with ⟨r0, hr0, hk⟩
      refine ⟨r0, ?_, hk⟩
      rw [findNeg _ _ _ ?_]
      · exact hr0
      · rw [← hpq x y hxy]
        exact Bool.eq_false_iff.mpr hx

theorem find?_keyEq_some_rev (p q : Container → Bool)
    (hpq : ∀ x y, keyEq x y → p x = q y) (l l0 : List Container)
    (h : List.Forall₂ keyEq l l0) :
    ∀ r0, l0.find? q = some r0 → ∃ r, l.find? p = some r ∧ keyEq r r0 := by
  induction h with
  | nil =>
    intro r0 hr0
    simp at hr0
  | cons hxy hrest ih =>
    rename_i x y l' l0'
    intro r0 hr0
    by_cases hy : q y = true
    · rw [findPos _ _ _ hy] at hr0
      cases hr0
      exact ⟨x, findPos _ _ _ ((hpq x y hxy).trans hy), hxy⟩
    · rw [findNeg _ _ _ (Bool.eq_false_iff.mpr hy)] at hr0
      rcases ih r0 hr0 with ⟨r, hr, hk⟩
      refine ⟨r, ?_, hk⟩
      rw [findNeg _ _ _ ?_]
      · exact hr
      · rw [hpq x y hxy]
        exact Bool.eq_false_iff.mpr hy

/-- With pairwise-distinct names, `find?` by name returns the member
itself. -/
theorem find?_name_self (l : List Container) (c : Container)
    (hnd : (l.map Container.name).Nodup) (hc : c ∈ l) :
    l.find? (fun x => x.name == c.name) = some c := by
  induction l with
  | nil => simp at hc
  | cons x t ih =>
    rcases List.mem_cons.mp hc with hcx | hct
    · subst hcx
      exact findPos _ _ _ (by simp)
    · have hnames : x.name ≠ c.name := by
        intro he
        have : c.name ∈ t.map Container.name := List.mem_map_of_mem _ hct
        rw [← he] at this
        exact (List.nodup_cons.mp (by simpa using hnd)).1 this
      rw [findNeg _ _ _ (by simp [hnames])]
      exact ih (List.nodup_cons.mp (by simpa using hnd)).2 hct

theorem inj_on_of_nodup_map' {f : Container → String}
    {l : List Container} (hnd : (l.map f).Nodup) (x : Container) (hx : x ∈ l)
    (y : Container) (hy : y ∈ l) (hxy : f x = f y) : x = y :=
  List.inj_on_of_nodup_map hnd hx hy hxy

theorem inj_on_of_nodup_mapI {f : Container → Int}
    {l : List Container} (hnd : (l.map f).Nodup) (x : Container) (hx : x ∈ l)
    (y : Container) (hy : y ∈ l) (hxy : f x = f y) : x = y :=
  List.inj_on_of_nodup_map hnd hx hy hxy

theorem getContainer_keyEq_name (m0 : List Container) (s : StoreState)
    (h : List.Forall₂ keyEq s.containers m0)
    (hnames : (m0.map Container.name).Nodup) (d : Container) (hd : d ∈ m0)
    (r : Container) (hr : getContainer s d.name = some r) :
    r.id = d.id ∧ r.containerId = d.containerId := by
  rcases find?_keyEq_some (fun x => x.name == d.name) (fun x => x.name == d.name)
      (fun x y hk => by
        show (x.name == d.name) = (y.name == d.name)
        rw [hk.1]) _ _ h r hr with ⟨r0, hr0, hk⟩
  have hr0d : r0 = d := by
    have := find?_name_self m0 d hnames hd
    rw [this] at hr0
    cases hr0
    rfl
  subst hr0d
  exact ⟨hk.2.1, hk.2.2⟩

theorem resolveFor_self_id (m0 : List Container) (s : StoreState)
    (h : List.Forall₂ keyEq s.containers m0)
    (hnames : (m0.map Container.name).Nodup) (c : Container) (hc : c ∈ m0)
    (hcid : ∀ x ∈ m0, x.containerId = c.containerId → x = c) :
    ∃ r, resolveFor s c.containerId c.name = some r ∧ r.id = c.id := by
  cases hce : (c.containerId == "") with
  | true =>
    have h0 := find?_name_self m0 c hnames hc
    rcases find?_keyEq_some_rev (fun x => x.name == c.name)
        (fun x => x.name == c.name) (fun x y hk => by
          show (x.name == c.name) = (y.name == c.name)
          rw [hk.1]) _ _ h c h0 with ⟨r, hr, hk⟩
    refine ⟨r, ?_, hk.2.1⟩
    unfold resolveFor
    simp only [hce, Bool.not_true]
    simpa [getContainer] using hr
  | false =>
    have hex : (m0.find? (fun x => x.containerId == c.containerId)).isSome = true := by
      apply List.find?_isSome.mpr
      exact ⟨c, hc, by simp⟩
    rcases Option.isSome_iff_exists.mp hex with ⟨r0, hr0⟩
    have hr0mem := List.mem_of_find?_eq_some hr0
    have hr0c : r0 = c := hcid r0 hr0mem (by simpa using List.find?_some hr0)
    subst hr0c
    rcases find?_keyEq_some_rev (fun x => x.containerId == r0.containerId)
        (fun x => x.containerId == r0.containerId) (fun x y hk => by
          show (x.containerId == r0.containerId) = (y.containerId == r0.containerId)
          rw [hk.2.2]) _ _ h r0 hr0 with ⟨r, hr, hk⟩
    refine ⟨r, ?_, hk.2.1⟩
    unfold resolveFor
    simp only [hce, Bool.not_false]
    simp [getContainerByContainerID, hce, hr]

theorem resolveFor_id_ne (m0 : List Container) (s : StoreState)
    (h : List.Forall₂ keyEq s.containers m0)
    (hnames : (m0.map Container.name).Nodup)
    (hids : (m0.map Container.id).Nodup)
    (c d : Container) (hc : c ∈ m0) (hd : d ∈ m0) (hdc : d ≠ c)
    (hcid : ∀ x ∈ m0, x.containerId = c.containerId → x = c)
    (r : Container) (hr : resolveFor s d.containerId d.name = some r) :
    r.id ≠ c.id := by
  have hdid : d.id ≠ c.id := by
    intro he
    exact hdc (inj_on_of_nodup_mapI hids d hd c hc he)
  unfold resolveFor at hr
  cases hde : (d.containerId == "") with
  | true =>
    rw [hde] at hr
    simp only [Bool.not_true] at hr
    have hr' : getContainer s d.name = some r := by simpa using hr
    rcases getContainer_keyEq_name m0 s h hnames d hd r hr' with ⟨hid, -⟩
    rw [hid]
    exact hdid
  | false =>
    rw [hde] at hr
    simp only [Bool.not_false, if_pos] at hr
    rw [getContainerByContainerID] at hr
    rw [hde] at hr
    simp only [Bool.false_eq_true, if_false] at hr
    cases hf : s.containers.find? (fun x => x.containerId == d.containerId) with
    | some r1 =>
      rw [hf] at hr
      simp only [Option.some.injEq] at hr
      subst hr
      rcases find?_keyEq_some (fun x => x.containerId == d.containerId)
          (fun x => x.containerId == d.containerId)
          (fun x y hk => by
            show (x.containerId == d.containerId) = (y.containerId == d.containerId)
            rw [hk.2.2]) _ _ h r1 hf with ⟨r0, hr0, hk⟩
      have hr0mem := List.mem_of_find?_eq_some hr0
      have hr0p : r0.containerId = d.containerId := by
        simpa using List.find?_some hr0
      intro he
      have hr0id : r0.id = c.id := hk.2.1.symm.trans he
      have hr0c : r0 = c := inj_on_of_nodup_mapI hids r0 hr0mem c hc hr0id
      subst hr0c
      exact hdc (hcid d hd hr0p.symm)
    | none =>
      rw [hf] at hr
      have hr' : getContainer s d.name = some r := hr
      rcases getContainer_keyEq_name m0 s h hnames d hd r hr' with ⟨hid, -⟩
      rw [hid]
      exact hdid

theorem forall2_key_replace (w : Container) (n : String) (hwn : w.name = n)
    (l l0 : List Container) (h : List.Forall₂ keyEq l l0)
    (hw : ∀ y ∈ l0, y.name = n → keyEq w y) :
    List.Forall₂ keyEq (l.map (fun x => if x.name == n then w else x)) l0 := by
  induction h with
  | nil => exact .nil
  | cons hxy hrest ih =>
    rename_i x y l' l0'
    simp only [List.map_cons]
    refine .cons ?_ (ih ?_)
    · by_cases hx : (x.name == n) = true
      · rw [if_pos hx]
        have hxn : x.name = n := by simpa using hx
        exact hw y (List.mem_cons_self _ _) (hxy.1.symm.trans hxn)
      · rw [if_neg hx]
        exact hxy
    · intro y' hy' hn
      exact hw y' (List.mem_cons_of_mem _ hy') hn

theorem keyEq_upsert (m0 : List Container) (s : StoreState) (w : Container)
    (now : Int) (h : List.Forall₂ keyEq s.containers m0)
    (hnames : (m0.map Container.name).Nodup)
    (d : Container) (hd : d ∈ m0) (hwn : w.name = d.name)
    (hwc : w.containerId = d.containerId) :
    List.Forall₂ keyEq (upsertContainer s w now).containers m0 := by
  have h0 : m0.find? (fun x => x.name == w.name) = some d := by
    rw [hwn]
    exact find?_name_self m0 d hnames hd
  rcases find?_keyEq_some_rev (fun x => x.name == w.name)
      (fun x => x.name == w.name) (fun x y hk => by
        show (x.name == w.name) = (y.name == w.name)
        rw [hk.1]) _ _ h d h0 with ⟨r, hr, hkr⟩
  have hrow : (upsertRow s w now).name = w.name := upsertRow_name s w now
  have hget : getContainer s w.name = some r := hr
  show List.Forall₂ keyEq (putContainer s.containers (upsertRow s w now)) m0
  unfold putContainer
  rw [hrow]
  rw [if_pos (by rw [hr]; rfl)]
  apply forall2_key_replace (upsertRow s w now) w.name hrow _ _ h
  intro y hy hyn
  have hyd : y = d := by
    apply inj_on_of_nodup_map' hnames y hy d hd
    rw [hyn, hwn]
  subst hyd
  refine ⟨hrow.trans hwn, ?_, ?_⟩
  · rw [upsertRow_id, hget]
    exact hkr.2.1
  · rw [upsertRow_containerId]
    exact hwc

theorem emitAlertRecordM_alerts_spec (s : StoreState) (a : Alert) :
    (resolveFor s a.containerId a.container = none ∧
      (emitAlertRecordM s a).alerts = s.alerts) ∨
    (∃ r, resolveFor s a.containerId a.container = some r ∧
      ∃ x, (emitAlertRecordM s a).alerts = x :: s.alerts ∧
        x.containerPK = r.id ∧ x.type = a.type ∧ x.severity = a.severity ∧
        x.message = a.message ∧ x.detailsJSON = a.detailsJSON ∧
        x.timestamp = dbTime a.timestamp) := by
  unfold emitAlertRecordM addAlert
  cases hr : resolveFor s a.containerId a.container with
  | none =>
    left
    exact ⟨rfl, rfl⟩
  | some r =>
    right
    exact ⟨r, rfl, _, rfl, rfl, rfl, rfl, rfl, rfl, rfl⟩

theorem getLatestRestartTs_congr (s s0 : StoreState) (pk : Int)
    (h : s.events = s0.events) :
    getLatestRestartTs s pk = getLatestRestartTs s0 pk := by
  unfold getLatestRestartTs
  rw [h]

theorem healWrite_frame (m0 : List Container)
    (hnames : (m0.map Container.name).Nodup)
    (hids : (m0.map Container.id).Nodup)
    (c : Container) (hc : c ∈ m0)
    (hcid : ∀ x ∈ m0, x.containerId = c.containerId → x = c)
    (d : Container) (hd : d ∈ m0) (hdn : d.name ≠ c.name)
    (s : StoreState) (hrel : List.Forall₂ keyEq s.containers m0)
    (w : Container) (hwn : w.name = d.name) (hwc : w.containerId = d.containerId)
    (a : Alert) (han : a.container = d.name) (hac : a.containerId = d.containerId)
    (now : Int) :
    List.Forall₂ keyEq (emitAlertRecordM (upsertContainer s w now) a).containers m0 ∧
    getContainer (emitAlertRecordM (upsertContainer s w now) a) c.name =
      getContainer s c.name ∧
    (emitAlertRecordM (upsertContainer s w now) a).events = s.events ∧
    ((emitAlertRecordM (upsertContainer s w now) a).alerts = s.alerts ∨
      ∃ x, (emitAlertRecordM (upsertContainer s w now) a).alerts =
        x :: s.alerts ∧ x.containerPK ≠ c.id) := by
  have hrel1 : List.Forall₂ keyEq (upsertContainer s w now).containers m0 :=
    keyEq_upsert m0 s w now hrel hnames d hd hwn hwc
  refine ⟨?_, ?_, ?_, ?_⟩
  · rw [show (emitAlertRecordM (upsertContainer s w now) a).containers =
        (upsertContainer s w now).containers from emitAlertRecordM_containers _ _]
    exact hrel1
  · rw [getContainer_emitAlertRecordM]
    exact getContainer_upsert_ne s w now c.name
      (by rw [hwn]; exact fun he => hdn he.symm)
  · rw [emitAlertRecordM_events, upsert_events]
  · rcases emitAlertRecordM_alerts_spec (upsertContainer s w now) a with
      ⟨-, heq⟩ | ⟨r, hres, x, hx, hpk, -, -, -, -, -⟩
    · left
      rw [heq, upsert_alerts]
    · right
      refine ⟨x, by rw [hx, upsert_alerts], ?_⟩
      rw [hpk]
      rw [hac, han] at hres
      exact resolveFor_id_ne m0 (upsertContainer s w now) hrel1 hnames hids c d
        hc hd (fun he => hdn (by rw [he])) hcid r hres

theorem checkHealsStep_frame (window now : Int) (m0 : List Container)
    (hnames : (m0.map Container.name).Nodup)
    (hids : (m0.map Container.id).Nodup)
    (c : Container) (hc : c ∈ m0)
    (hcid : ∀ x ∈ m0, x.containerId = c.containerId → x = c)
    (d : Container) (hd : d ∈ m0) (hdn : d.name ≠ c.name)
    (s : MonState) (hrel : List.Forall₂ keyEq s.store.containers m0) :
    List.Forall₂ keyEq (checkHealsStep window now s d).store.containers m0 ∧
    getContainer (checkHealsStep window now s d).store c.name =
      getContainer s.store c.name ∧
    (checkHealsStep window now s d).store.events = s.store.events ∧
    ((checkHealsStep window now s d).store.alerts = s.store.alerts ∨
      ∃ x, (checkHealsStep window now s d).store.alerts =
        x :: s.store.alerts ∧ x.containerPK ≠ c.id) := by
  simp only [checkHealsStep]
  split
  · exact ⟨hrel, rfl, rfl, Or.inl rfl⟩
  split
  · exact ⟨hrel, rfl, rfl, Or.inl rfl⟩
  cases hts : getLatestRestartTs s.store d.id with
  | some last =>
    simp only [hts]
    split
    · refine healWrite_frame m0 hnames hids c hc hcid d hd hdn s.store hrel
        _ ?_ ?_ _ ?_ ?_ now
      · rfl
      · rfl
      · rfl
      · rfl
    · exact ⟨hrel, rfl, rfl, Or.inl rfl⟩
  | none =>
    simp only [hts]
    split
    · refine healWrite_frame m0 hnames hids c hc hcid d hd hdn s.store hrel
        _ ?_ ?_ _ ?_ ?_ now
      · rfl
      · rfl
      · rfl
      · rfl
    · exact ⟨hrel, rfl, rfl, Or.inl rfl⟩

theorem checkHeals_foldFrame (window now : Int) (m0 : List Container)
    (hnames : (m0.map Container.name).Nodup)
    (hids : (m0.map Container.id).Nodup)
    (c : Container) (hc : c ∈ m0)
    (hcid : ∀ x ∈ m0, x.containerId = c.containerId → x = c) :
    ∀ (l : List Container) (s : MonState),
      (∀ d ∈ l, d ∈ m0 ∧ d.name ≠ c.name) →
      List.Forall₂ keyEq s.store.containers m0 →
      List.Forall₂ keyEq
        ((l.foldl (checkHealsStep window now) s).store.containers) m0 ∧
      getContainer (l.foldl (checkHealsStep window now) s).store c.name =
        getContainer s.store c.name ∧
      (l.foldl (checkHealsStep window now) s).store.events = s.store.events ∧
      ∃ pre, (l.foldl (checkHealsStep window now) s).store.alerts =
          pre ++ s.store.alerts ∧ ∀ x ∈ pre, x.containerPK ≠ c.id := by
  intro l
  induction l with
  | nil =>
    intro s hl hrel
    exact ⟨hrel, rfl, rfl, [], rfl, by simp⟩
  | cons d t ih =>
    intro s hl hrel
    rw [List.foldl_cons]
    rcases checkHealsStep_frame window now m0 hnames hids c hc hcid d
        (hl d (List.mem_cons_self _ _)).1 (hl d (List.mem_cons_self _ _)).2 s
        hrel with ⟨h1, h2, h3, h4⟩
    rcases ih (checkHealsStep window now s d)
        (fun x hx => hl x (List.mem_cons_of_mem _ hx)) h1 with
      ⟨g1, g2, g3, pre, g4, g5⟩
    refine ⟨g1, g2.trans h2, g3.trans h3, ?_⟩
    rcases h4 with h4 | ⟨x, hx, hxpk⟩
    · exact ⟨pre, by rw [g4, h4], g5⟩
    · refine ⟨pre ++ [x], by rw [g4, hx]; simp, ?_⟩
      intro y hy
      rcases List.mem_append.mp hy with hy | hy
      · exact g5 y hy
      · rw [List.mem_singleton.mp hy]
        exact hxpk

theorem upsertRow_id_of_some (s : StoreState) (c0 ex : Container) (now : Int)
    (h : getContainer s c0.name = some ex) : (upsertRow s c0 now).id = ex.id := by
  rw [upsertRow_id, h]

theorem healWrite_self (m0 : List Container)
    (hnames : (m0.map Container.name).Nodup)
    (c : Container) (hc : c ∈ m0)
    (hcid : ∀ x ∈ m0, x.containerId = c.containerId → x = c)
    (s : StoreState) (hrel : List.Forall₂ keyEq s.containers m0)
    (hgc : getContainer s c.name = some c) (now : Int)
    (w : Container) (hwn : w.name = c.name) (hwc : w.containerId = c.containerId)
    (hwl : w.restartLoop = false) (hwk : w.restartStreak = 0)
    (hws : w.restartLoopSince = 0)
    (a : Alert) (han : a.container = c.name) (hac : a.containerId = c.containerId) :
    List.Forall₂ keyEq (emitAlertRecordM (upsertContainer s w now) a).containers m0 ∧
    (∃ c', getContainer (emitAlertRecordM (upsertContainer s w now) a) c.name =
        some c' ∧ c'.id = c.id ∧ c'.name = c.name ∧ c'.restartLoop = false ∧
        c'.restartStreak = 0 ∧ c'.restartLoopSince = 0) ∧
    (emitAlertRecordM (upsertContainer s w now) a).events = s.events ∧
    (∃ x, (emitAlertRecordM (upsertContainer s w now) a).alerts =
        x :: s.alerts ∧ x.containerPK = c.id ∧ x.type = a.type ∧
        x.severity = a.severity ∧ x.message = a.message ∧
        x.detailsJSON = a.detailsJSON) := by
  have hrel1 : List.Forall₂ keyEq (upsertContainer s w now).containers m0 :=
    keyEq_upsert m0 s w now hrel hnames c hc hwn hwc
  have hg2 : getContainer s w.name = some c := by
    rw [hwn]
    exact hgc
  refine ⟨?_, ?_, ?_, ?_⟩
  · rw [show (emitAlertRecordM (upsertContainer s w now) a).containers =
        (upsertContainer s w now).containers from emitAlertRecordM_containers _ _]
    exact hrel1
  · refine ⟨upsertRow s w now, ?_, ?_, ?_, ?_, ?_, ?_⟩
    · rw [getContainer_emitAlertRecordM]
      rw [← hwn]
      exact getContainer_upsert_self s w now
    · exact upsertRow_id_of_some s w c now hg2
    · exact (upsertRow_name s w now).trans hwn
    · exact (upsertRow_restartLoop s w now).trans hwl
    · exact (upsertRow_restartStreak s w now).trans hwk
    · exact (upsertRow_restartLoopSince s w now).trans hws
  · rw [emitAlertRecordM_events, upsert_events]
  · rcases emitAlertRecordM_alerts_spec (upsertContainer s w now) a with
      ⟨hnone, -⟩ | ⟨r, hres, x, hx, hpk, hty, hsev, hmsg, hdet, -⟩
    · exfalso
      rcases resolveFor_self_id m0 (upsertContainer s w now) hrel1 hnames c hc
          hcid with ⟨r, hr, -⟩
      rw [hac, han] at hnone
      rw [hr] at hnone
      cases hnone
    · rcases resolveFor_self_id m0 (upsertContainer s w now) hrel1 hnames c hc
          hcid with ⟨r0, hr0, hid0⟩
      rw [hac, han] at hres
      rw [hr0] at hres
      have hrr : r0 = r := by
        simpa using hres
      refine ⟨x, by rw [hx, upsert_alerts], ?_, hty, hsev, hmsg, hdet⟩
      rw [hpk, ← hrr]
      exact hid0

theorem checkHealsStep_self (window now : Int) (m0 : List Container)
    (hnames : (m0.map Container.name).Nodup)
    (c : Container) (hc : c ∈ m0)
    (hcid : ∀ x ∈ m0, x.containerId = c.containerId → x = c)
    (s : MonState) (hrel : List.Forall₂ keyEq s.store.containers m0)
    (hgc : getContainer s.store c.name = some c) :
    (c.restartLoop = true → (lowerStr c.status == "running") = true →
      (match getLatestRestartTs s.store c.id with
        | some last => decide (now - last > window)
        | none => true) = true →
      List.Forall₂ keyEq (checkHealsStep window now s c).store.containers m0 ∧
      (∃ c', getContainer (checkHealsStep window now s c).store c.name = some c' ∧
        c'.id = c.id ∧ c'.name = c.name ∧ c'.restartLoop = false ∧
        c'.restartStreak = 0 ∧ c'.restartLoopSince = 0) ∧
      (checkHealsStep window now s c).store.events = s.store.events ∧
      (∃ x, (checkHealsStep window now s c).store.alerts =
          x :: s.store.alerts ∧ x.containerPK = c.id ∧
          x.type = "restart_healed" ∧ x.severity = "green" ∧
          x.message = (if c.restartStreak > 0 then
            "Restart loop healed after " ++ toString c.restartStreak ++ " restarts"
            else "Restart loop healed") ∧
          x.detailsJSON = restartCountJSON c.restartStreak)) ∧
    (¬(c.restartLoop = true ∧ (lowerStr c.status == "running") = true ∧
        (match getLatestRestartTs s.store c.id with
          | some last => decide (now - last > window)
          | none => true) = true) →
      checkHealsStep window now s c = s) := by
  constructor
  · intro h1 h2 h3
    simp only [checkHealsStep]
    rw [if_neg (not_not_intro h1), if_neg (not_not_intro h2)]
    cases hts : getLatestRestartTs s.store c.id with
    | some last =>
      simp only [hts] at h3
      simp only [hts]
      rw [if_pos h3]
      refine healWrite_self m0 hnames c hc hcid s.store hrel hgc now
          _ ?_ ?_ ?_ ?_ ?_ _ ?_ ?_ <;> rfl
    | none =>
      simp only [hts]
      rw [if_pos trivial]
      refine healWrite_self m0 hnames c hc hcid s.store hrel hgc now
          _ ?_ ?_ ?_ ?_ ?_ _ ?_ ?_ <;> rfl
  · intro hneg
    simp only [checkHealsStep]
    by_cases h1 : c.restartLoop = true
    · rw [if_neg (not_not_intro h1)]
      by_cases h2 : (lowerStr c.status == "running") = true
      · rw [if_neg (not_not_intro h2)]
        cases hts : getLatestRestartTs s.store c.id with
        | some last =>
          simp only [hts]
          have h3 : ¬(decide (now - last > window) = true) := by
            intro hh
            apply hneg
            refine ⟨h1, h2, ?_⟩
            simp only [hts]
            exact hh
          rw [if_neg h3]
        | none =>
          exact absurd ⟨h1, h2, by simp only [hts]⟩ hneg
      · rw [if_pos h2]
    · rw [if_pos h1]

theorem filter_nil_of (p : Event → Bool) (l : List Event)
    (h : ∀ a ∈ l, ¬p a = true) : l.filter p = [] := by
  induction l with
  | nil => rfl
  | cons a t ih =>
    rw [List.filter_cons, if_neg (h a (List.mem_cons_self _ _))]
    exact ih fun b hb => h b (List.mem_cons_of_mem _ hb)

/-- C6: on a heal tick over a store with pairwise-distinct container names,
surrogate ids and a uniquely-identified engine id for the scanned container
`c` (present in the cache), if `c` is flagged `restart_loop` with status
`running` and its latest `restart` event is absent or older than the
window, then the scanner clears `restart_loop`, `restart_streak` and
`restart_loop_since` on `c`'s row (same surrogate id) and prepends exactly
one alert for `c`'s surrogate id: a green `restart_healed` alert whose
details carry `restart_count` equal to the streak before clearing and
whose message mentions that count when it is positive.  Otherwise `c`'s
row is left unchanged and no alert for its surrogate id is added. -/
theorem C6_checkHeals_spec (window now : Int) (m : MonState) (c : Container)
    (hnames : (m.store.containers.map Container.name).Nodup)
    (hids : (m.store.containers.map Container.id).Nodup)
    (hcid : ∀ x ∈ m.store.containers, x.containerId = c.containerId → x = c)
    (hmem : c ∈ m.store.containers) (hpres : c.present = true) :
    (c.restartLoop = true ∧ (lowerStr c.status == "running") = true ∧
        (match getLatestRestartTs m.store c.id with
          | some last => decide (now - last > window)
          | none => true) = true →
      (∃ c', getContainer (checkHeals window now m).store c.name = some c' ∧
        c'.id = c.id ∧ c'.name = c.name ∧ c'.restartLoop = false ∧
        c'.restartStreak = 0 ∧ c'.restartLoopSince = 0) ∧
      (∃ pre x, (checkHeals window now m).store.alerts = pre ++ m.store.alerts ∧
        pre.filter (fun a => a.containerPK == c.id) = [x] ∧
        x.type = "restart_healed" ∧ x.severity = "green" ∧
        x.message = (if c.restartStreak > 0 then
          "Restart loop healed after " ++ toString c.restartStreak ++ " restarts"
          else "Restart loop healed") ∧
        x.detailsJSON = restartCountJSON c.restartStreak)) ∧
    (¬(c.restartLoop = true ∧ (lowerStr c.status == "running") = true ∧
        (match getLatestRestartTs m.store c.id with
          | some last => decide (now - last > window)
          | none => true) = true) →
      getContainer (checkHeals window now m).store c.name = some c ∧
      (∃ pre, (checkHeals window now m).store.alerts = pre ++ m.store.alerts ∧
        pre.filter (fun a => a.containerPK == c.id) = [])) := by
  have hsnap : c ∈ listContainers m.store := by
    unfold listContainers
    exact List.mem_filter.mpr ⟨hmem, hpres⟩
  have hsubset : ∀ d ∈ listContainers m.store, d ∈ m.store.containers := by
    intro d hd
    exact (List.mem_filter.mp hd).1
  have hsnodup : ((listContainers m.store).map Container.name).Nodup := by
    apply List.Nodup.sublist _ hnames
    exact List.Sublist.map _ (List.filter_sublist _)
  rcases List.append_of_mem hsnap with ⟨l1, l2, hsplit⟩
  rw [hsplit] at hsnodup
  have hl12 : (∀ d ∈ l1, d.name ≠ c.name) ∧ (∀ d ∈ l2, d.name ≠ c.name) := by
    rw [List.map_append, List.map_cons] at hsnodup
    rcases List.nodup_append.mp hsnodup with ⟨hn1, hn2, hdisj⟩
    constructor
    · intro d hd he
      exact hdisj (List.mem_map_of_mem _ hd)
        (by rw [he]; exact List.mem_cons_self _ _)
    · intro d hd he
      apply (List.nodup_cons.mp hn2).1
      rw [← he]
      exact List.mem_map_of_mem _ hd
  have hsub1 : ∀ d ∈ l1, d ∈ m.store.containers ∧ d.name ≠ c.name := by
    intro d hd
    refine ⟨hsubset d ?_, hl12.1 d hd⟩
    rw [hsplit]
    exact List.mem_append_left _ hd
  have hsub2 : ∀ d ∈ l2, d ∈ m.store.containers ∧ d.name ≠ c.name := by
    intro d hd
    refine ⟨hsubset d ?_, hl12.2 d hd⟩
    rw [hsplit]
    exact List.mem_append_right _ (List.mem_cons_of_mem _ hd)
  have hgc : getContainer m.store c.name = some c :=
    find?_name_self _ c hnames hmem
  unfold checkHeals
  rw [hsplit, List.foldl_append, List.foldl_cons]
  rcases checkHeals_foldFrame window now m.store.containers hnames hids c hmem
      hcid l1 m hsub1 (keyEq_all_refl _) with ⟨a1, a2, a3, preA, a4, a5⟩
  have hgcA : getContainer
      (List.foldl (checkHealsStep window now) m l1).store c.name = some c := by
    rw [a2]
    exact hgc
  constructor
  · rintro ⟨h1, h2, h3⟩
    have h3' : (match getLatestRestartTs
        (List.foldl (checkHealsStep window now) m l1).store c.id with
        | some last => decide (now - last > window)
        | none => true) = true := by
      rw [getLatestRestartTs_congr _ m.store c.id a3]
      exact h3
    rcases (checkHealsStep_self window now m.store.containers hnames c hmem
        hcid (List.foldl (checkHealsStep window now) m l1) a1 hgcA).1 h1 h2 h3'
      with ⟨b1, ⟨c', b2, b3, b4, b5, b6, b7⟩, b8, x, b9, b10, b11, b12, b13, b14⟩
    rcases checkHeals_foldFrame window now m.store.containers hnames hids c hmem
        hcid l2 (checkHealsStep window now
          (List.foldl (checkHealsStep window now) m l1) c) hsub2 b1 with
      ⟨g1, g2, g3, preC, g4, g5⟩
    constructor
    · refine ⟨c', ?_, b3, b4, b5, b6, b7⟩
      rw [g2]
      exact b2
    · have hpx : (x.containerPK == c.id) = true := by simp [b10]
      have hCnil : preC.filter (fun a => a.containerPK == c.id) = [] :=
        filter_nil_of _ _ (fun a ha hp =>
          g5 a ha (by simpa using hp))
      have hAnil : preA.filter (fun a => a.containerPK == c.id) = [] :=
        filter_nil_of _ _ (fun a ha hp =>
          a5 a ha (by simpa using hp))
      refine ⟨preC ++ x :: preA, x, ?_, ?_, b11, b12, b13, b14⟩
      · rw [g4, b9, a4]
        simp
      · rw [List.filter_append, List.filter_cons]
        rw [if_pos hpx, hCnil, hAnil]
        rfl
  · intro hneg
    have hneg' : ¬(c.restartLoop = true ∧
        (lowerStr c.status == "running") = true ∧
        (match getLatestRestartTs
          (List.foldl (checkHealsStep window now) m l1).store c.id with
          | some last => decide (now - last > window)
          | none => true) = true) := by
      rw [getLatestRestartTs_congr _ m.store c.id a3]
      exact hneg
    rw [(checkHealsStep_self window now m.store.containers hnames c hmem hcid
        (List.foldl (checkHealsStep window now) m l1) a1 hgcA).2 hneg']
    rcases checkHeals_foldFrame window now m.store.containers hnames hids c hmem
        hcid l2 (List.foldl (checkHealsStep window now) m l1) hsub2 a1 with
      ⟨g1, g2, g3, preC, g4, g5⟩
    constructor
    · rw [g2]
      exact hgcA
    · have hCnil : preC.filter (fun a => a.containerPK == c.id) = [] :=
        filter_nil_of _ _ (fun a ha hp =>
          g5 a ha (by simpa using hp))
      have hAnil : preA.filter (fun a => a.containerPK == c.id) = [] :=
        filter_nil_of _ _ (fun a ha hp =>
          a5 a ha (by simpa using hp))
      refine ⟨preC ++ preA, ?_, ?_⟩
      · rw [g4, a4, List.append_assoc]
      · rw [List.filter_append, hCnil, hAnil]
        rfl

/-- A present, running, in-loop row with no restart events stored. -/
def fxHealC : Container :=
  { defContainer with id := 1, name := "h", containerId := "chh", present := true, status := "running", registeredAt := 10, role := "service", restartLoop := true, restartStreak := 3, restartLoopSince := 7 }

def fxHealS : StoreState :=
  { emptyStore with containers := [fxHealC], nextContainerId := 2 }

def fxHealM : MonState := ⟨fxHealS, fxTr0⟩

/-- C6 witness: with no stored `restart` event the tick heals the row and
emits the single green `restart_healed` alert. -/
theorem C6_checkHeals_witness :
    ((fxHealS.containers.map Container.name).Nodup ∧
     (fxHealS.containers.map Container.id).Nodup ∧
     (∀ x ∈ fxHealS.containers, x.containerId = fxHealC.containerId → x = fxHealC) ∧
     fxHealC ∈ fxHealS.containers ∧ fxHealC.present = true) ∧
    ((∃ c', getContainer (checkHeals 300 1000 fxHealM).store fxHealC.name =
        some c' ∧ c'.id = fxHealC.id ∧ c'.name = fxHealC.name ∧
        c'.restartLoop = false ∧ c'.restartStreak = 0 ∧
        c'.restartLoopSince = 0) ∧
      (∃ pre x, (checkHeals 300 1000 fxHealM).store.alerts =
          pre ++ fxHealM.store.alerts ∧
        pre.filter (fun a => a.containerPK == fxHealC.id) = [x] ∧
        x.type = "restart_healed" ∧ x.severity = "green" ∧
        x.message = (if fxHealC.restartStreak > 0 then
          "Restart loop healed after " ++ toString fxHealC.restartStreak ++
            " restarts"
          else "Restart loop healed") ∧
        x.detailsJSON = restartCountJSON fxHealC.restartStreak)) :=
  ⟨⟨by decide, by decide, by decide, by decide, by decide⟩,
    (C6_checkHeals_spec 300 1000 fxHealM fxHealC (by decide) (by decide)
      (by decide) (by decide) (by decide)).1 (by decide)⟩

end Healthmon
